import Mathlib

/-!
The client-side code of skillarenalegends.

A shallow embedding of the JavaScript under `src/js`: the two fragment loaders
`ComponentBuilder.loadComponent` (builder.js) and `GameWebsite.loadComponent`
(main.js) with the document tree, the `Map` used as fragment cache and the
network they act on; the navigation links of builder.js; the cookie consent
of cookie-consent.js; the Read More listener of news.js; and the contact form
of main.js.

Conventions of the embedding.

* The document is a tree of `Node`s.  An element carries its tag, its
  attributes as written, and its children.
* What the browser supplies is a parameter (`Env`): the HTML parser behind
  `innerHTML = ...`, and URL resolution behind the `src` property of a script.
* `fetch` is an oracle: every call that may reach the network is handed the
  `FetchOutcome` the network would answer with.
* An `async` method is run to completion before the next one starts (the way
  `loadComponents` and `loadHomePageContent` await each call); its result is a
  `Completion`: `normal` when the promise resolves, `throw` when it rejects.
* `State.log` records, in order, the network requests and document writes.
  `console` output is not recorded.
* Strings are lists of characters; a pattern anchored with `^` and `$` is a
  `Regex` tested against the whole string.
* An event listener is a function of what it reads (attributes, form fields,
  stored data) to what it does; elements that the listener takes for granted
  (the news item around a button, the fields of the form) are present.
-/

namespace Spec2Proof

/-! ## Document tree -/

/-- A DOM node: a text node, or an element with its attributes and children. -/
inductive Node where
  | text (data : String)
  | elem (tag : String) (attrs : List (String × String)) (children : List Node)

mutual
/-- Decidable equality of nodes. -/
def Node.decEq : (a b : Node) → Decidable (a = b)
  | .text s, .text t =>
      if h : s = t then isTrue (by rw [h]) else isFalse (by intro e; cases e; exact h rfl)
  | .text _, .elem _ _ _ => isFalse (by intro e; cases e)
  | .elem _ _ _, .text _ => isFalse (by intro e; cases e)
  | .elem t1 a1 k1, .elem t2 a2 k2 =>
      if h1 : t1 = t2 then
        if h2 : a1 = a2 then
          match Node.decEqList k1 k2 with
          | isTrue h3 => isTrue (by rw [h1, h2, h3])
          | isFalse h3 => isFalse (by intro e; cases e; exact h3 rfl)
        else isFalse (by intro e; cases e; exact h2 rfl)
      else isFalse (by intro e; cases e; exact h1 rfl)
/-- Decidable equality of lists of nodes. -/
def Node.decEqList : (a b : List Node) → Decidable (a = b)
  | [], [] => isTrue rfl
  | [], _ :: _ => isFalse (by intro e; cases e)
  | _ :: _, [] => isFalse (by intro e; cases e)
  | x :: xs, y :: ys =>
      match Node.decEq x y with
      | isTrue h1 =>
          match Node.decEqList xs ys with
          | isTrue h2 => isTrue (by rw [h1, h2])
          | isFalse h2 => isFalse (by intro e; cases e; exact h2 rfl)
      | isFalse h1 => isFalse (by intro e; cases e; exact h1 rfl)
end

instance : DecidableEq Node := Node.decEq

/-- The value of attribute `name` as written on the element, `null` when absent
(`Element.getAttribute`). -/
def getAttribute (name : String) : List (String × String) → Option String
  | [] => none
  | (k, v) :: rest => if k = name then some v else getAttribute name rest

/-- Set attribute `name` to `value`, replacing a previous value
(`Element.setAttribute`). -/
def setAttribute (name value : String) : List (String × String) → List (String × String)
  | [] => [(name, value)]
  | (k, v) :: rest =>
      if k = name then (k, value) :: rest else (k, v) :: setAttribute name value rest

mutual
/-- The concatenated text of a node and its descendants (`Node.textContent`). -/
def Node.textContent : Node → String
  | .text s => s
  | .elem _ _ kids => textContentList kids
/-- The concatenated text of a list of nodes. -/
def textContentList : List Node → String
  | [] => ""
  | n :: ns => n.textContent ++ textContentList ns
end

/-- The children that `textContent = s` leaves in an element: one text node, or
none for the empty string. -/
def textNodes (s : String) : List Node :=
  if s = "" then [] else [Node.text s]

mutual
/-- The script elements among a node and its descendants, in tree order. -/
def Node.scripts : Node → List Node
  | .text _ => []
  | .elem tag attrs kids =>
      if tag = "script" then .elem tag attrs kids :: scriptsIn kids else scriptsIn kids
/-- The result of `container.querySelectorAll("script")`, for the children of
`container`: all script elements below it, in tree order. -/
def scriptsIn : List Node → List Node
  | [] => []
  | n :: ns => n.scripts ++ scriptsIn ns
end

mutual
/-- A node and its descendants that are elements, in tree order. -/
def Node.elements : Node → List Node
  | .text _ => []
  | .elem tag attrs kids => .elem tag attrs kids :: elementsIn kids
/-- All elements below a list of nodes, in tree order. -/
def elementsIn : List Node → List Node
  | [] => []
  | n :: ns => n.elements ++ elementsIn ns
end

mutual
/-- The first element with the given `id` attribute among a node and its
descendants, in tree order. -/
def Node.findById (id : String) : Node → Option Node
  | .text _ => none
  | .elem tag attrs kids =>
      if getAttribute "id" attrs = some id then some (.elem tag attrs kids)
      else findByIdIn id kids
/-- The first element with the given `id` attribute below a list of nodes. -/
def findByIdIn (id : String) : List Node → Option Node
  | [] => none
  | n :: ns =>
      match n.findById id with
      | some e => some e
      | none => findByIdIn id ns
end

mutual
/-- Replace the children of the first element with the given id, in a node. -/
def Node.setChildren (id : String) (kids : List Node) : Node → Node
  | .text s => .text s
  | .elem tag attrs old =>
      if getAttribute "id" attrs = some id then .elem tag attrs kids
      else .elem tag attrs (setChildrenIn id kids old)
/-- Replace the children of the first element with the given id, in a list of
nodes; the list is unchanged when no element has that id. -/
def setChildrenIn (id : String) (kids : List Node) : List Node → List Node
  | [] => []
  | n :: ns =>
      match n.findById id with
      | some _ => n.setChildren id kids :: ns
      | none => n :: setChildrenIn id kids ns
end

mutual
/-- A node with every script element removed, `none` when the node itself is
a script element. -/
def Node.withoutScripts : Node → Option Node
  | .text s => some (.text s)
  | .elem tag attrs kids =>
      if tag = "script" then none else some (.elem tag attrs (removeScripts kids))
/-- The children of a container after `script.remove()` has been called on each
of its script elements. -/
def removeScripts : List Node → List Node
  | [] => []
  | n :: ns =>
      match n.withoutScripts with
      | some m => m :: removeScripts ns
      | none => removeScripts ns
end

/-- Truthiness of `script.dataset.processed`: the attribute `data-processed` is
present and not the empty string. -/
def datasetProcessed (attrs : List (String × String)) : Bool :=
  match getAttribute "data-processed" attrs with
  | some v => v ≠ ""
  | none => false

mutual
/-- A node after `dataset.processed = "true"` has been set on each script
element in it that was not yet marked. -/
def Node.markProcessed : Node → Node
  | .text s => .text s
  | .elem tag attrs kids =>
      if tag = "script" ∧ datasetProcessed attrs = false then
        .elem tag (setAttribute "data-processed" "true" attrs) (markProcessedIn kids)
      else .elem tag attrs (markProcessedIn kids)
/-- The children of a container after each unmarked script element below it has
been marked as processed. -/
def markProcessedIn : List Node → List Node
  | [] => []
  | n :: ns => n.markProcessed :: markProcessedIn ns
end

mutual
/-- A node after the first `n` script elements in it, in tree order, have been
visited and those not yet marked have been marked as processed; with the
number of visits left over. -/
def Node.markProcessedFirst : Nat → Node → Node × Nat
  | n, .text s => (.text s, n)
  | n, .elem tag attrs kids =>
      if tag = "script" then
        match n with
        | 0 => (.elem tag attrs kids, 0)
        | k + 1 =>
            ((.elem tag
                (if datasetProcessed attrs then attrs
                 else setAttribute "data-processed" "true" attrs)
                (markProcessedFirstIn k kids).1),
              (markProcessedFirstIn k kids).2)
      else (.elem tag attrs (markProcessedFirstIn n kids).1, (markProcessedFirstIn n kids).2)
/-- The children of a container after the first `n` script elements below it
have been visited and marked. -/
def markProcessedFirstIn : Nat → List Node → List Node × Nat
  | n, [] => ([], n)
  | n, x :: xs =>
      ((x.markProcessedFirst n).1 :: (markProcessedFirstIn (x.markProcessedFirst n).2 xs).1,
        (markProcessedFirstIn (x.markProcessedFirst n).2 xs).2)
end

/-- The children of a node (none for a text node). -/
def Node.children : Node → List Node
  | .text _ => []
  | .elem _ _ kids => kids

/-- The attributes of a node (none for a text node). -/
def Node.attrs : Node → List (String × String)
  | .text _ => []
  | .elem _ as _ => as

/-! ## The page -/

/-- The document: the children of `document.head` and of `document.body`. -/
structure Page where
  head : List Node
  body : List Node
  deriving DecidableEq

/-- The element returned by `document.getElementById(id)`: the first element
with that id in tree order, head before body; `null` for the empty id. -/
def Page.getElementById (p : Page) (id : String) : Option Node :=
  if id = "" then none
  else
    match findByIdIn id p.head with
    | some e => some e
    | none => findByIdIn id p.body

/-- The page after the children of the element `getElementById(id)` have been
replaced by `kids`. -/
def Page.setChildren (p : Page) (id : String) (kids : List Node) : Page :=
  match findByIdIn id p.head with
  | some _ => { p with head := setChildrenIn id kids p.head }
  | none => { p with body := setChildrenIn id kids p.body }

/-- The children of the element `getElementById(id)`, when it exists. -/
def Page.childrenOf (p : Page) (id : String) : Option (List Node) :=
  (p.getElementById id).map Node.children

/-- The page after `document.head.appendChild(n)`. -/
def Page.appendHead (p : Page) (n : Node) : Page :=
  { p with head := p.head ++ [n] }

/-- All script elements of the document, in tree order. -/
def Page.scripts (p : Page) : List Node :=
  scriptsIn p.head ++ scriptsIn p.body

/-! ## Network, cache and state -/

/-- What the network answers to one `fetch(url)`: the promise rejects, or it
resolves to a response with a status and a body; `body = none` stands for a
body that cannot be read (`response.text()` rejects). -/
inductive FetchOutcome where
  | networkError
  | response (status : Nat) (body : Option String)
  deriving DecidableEq

/-- The `ok` property of a response: the status is in the range 200 to 299. -/
def responseOk (status : Nat) : Bool :=
  decide (200 ≤ status) && decide (status ≤ 299)

/-- The fragment cache `this.cache`, a `Map` from component path to HTML text. -/
abbrev Cache := List (String × String)

/-- The value stored under key `k` (`Map.get`), `none` when `Map.has` is false. -/
def Cache.get? : Cache → String → Option String
  | [], _ => none
  | (k, v) :: rest, key => if k = key then some v else Cache.get? rest key

/-- The map after `Map.set(k, v)`: the value of an existing key is replaced in
place, a new key is added at the end. -/
def Cache.set : Cache → String → String → Cache
  | [], key, value => [(key, value)]
  | (k, v) :: rest, key, value =>
      if k = key then (k, value) :: rest else (k, v) :: Cache.set rest key value

/-- An observable action of the loaders. -/
inductive Effect where
  | fetch (url : String)
  | setInnerHTML (id : String) (html : String)
  | appendHead (script : Node)
  deriving DecidableEq

/-- Whether an effect is a network request. -/
def Effect.isFetch : Effect → Bool
  | .fetch _ => true
  | _ => false

/-- Whether an effect is a network request for `url`. -/
def Effect.isFetchOf (url : String) : Effect → Bool
  | .fetch u => u = url
  | _ => false

/-- Whether an effect appends a script element to the document head. -/
def Effect.isAppendHead : Effect → Bool
  | .appendHead _ => true
  | _ => false

/-- The state the loaders act on: the cache of the `ComponentBuilder` instance,
the document, and the trace of effects so far. -/
structure State where
  cache : Cache
  page : Page
  log : List Effect
  deriving DecidableEq

/-- What the browser supplies.
* `parse html`: the nodes that `element.innerHTML = html` creates.
* `resolve v`: the value of the `src` property of a script whose `src`
  attribute is `v`: the URL resolved against the document, which for the
  empty string is the URL of the document itself.
* `cssString text`: what `document.querySelector` makes of the selector
  `script[src="text"]`.  `some v` when it selects the script elements whose
  `src` attribute is `v`; `v` is `text` itself unless `text` holds a backslash,
  which starts an escape.  `none` when the selector is invalid and the call
  throws a `SyntaxError`, as with a double quote or a line break in `text`.
  A text that closes the string and the bracket and goes on as another valid
  selector is not represented.
* `decorate kids`: the children of a container after
  `initializeComponentAnimations` and `replaceDataPlaceholders` have run on
  it; both rewrite classes, inline styles and placeholder texts of elements
  below the container and read nothing else of the document. -/
structure Env where
  parse : String → List Node
  resolve : String → String
  cssString : String → Option String
  decorate : List Node → List Node

/-- How a method call ends: it returns (an `async` method resolves its promise),
or an exception leaves it (the promise rejects). -/
inductive Completion (σ : Type) where
  | normal (s : σ)
  | throw (err : String) (s : σ)
  deriving DecidableEq

/-- The state a call leaves behind. -/
def Completion.state {σ : Type} : Completion σ → σ
  | .normal s => s
  | .throw _ s => s

/-- Whether the call returned without an exception. -/
def Completion.isNormal {σ : Type} : Completion σ → Bool
  | .normal _ => true
  | .throw _ _ => false

/-- The statement `try body catch (error) handler`. -/
def tryCatch {σ : Type} (body : Completion σ) (handler : String → σ → Completion σ) :
    Completion σ :=
  match body with
  | .normal s => .normal s
  | .throw e s => handler e s

/-- The value of `script.src`: the empty string when the attribute is absent,
else the resolved URL. -/
def scriptSrc (env : Env) (script : Node) : String :=
  match getAttribute "src" script.attrs with
  | none => ""
  | some v => env.resolve v

/-- The statement `placeholder.innerHTML = html`, for the element with the given id. -/
def setInnerHTML (env : Env) (id html : String) (s : State) : State :=
  { s with page := s.page.setChildren id (env.parse html),
           log := s.log ++ [Effect.setInnerHTML id html] }

/-- The statement `document.head.appendChild(newScript)`. -/
def appendHead (script : Node) (s : State) : State :=
  { s with page := s.page.appendHead script, log := s.log ++ [Effect.appendHead script] }

/-! ## `ComponentBuilder` (src/js/builder.js) -/

namespace ComponentBuilder

/-- The element that `executeScripts` creates for one script of the container:
it copies `src` when `script.src` is non-empty, else the text. -/
def newScript (env : Env) (script : Node) : Node :=
  if scriptSrc env script ≠ "" then
    Node.elem "script" [("src", scriptSrc env script)] []
  else
    Node.elem "script" [] (textNodes script.textContent)

/-- The method `executeScripts(container)`: every script element below the
container is removed from it and a new script element with the same `src` or
text is appended to the document head, one per script, in tree order.  The
removals are written first here; no round of the loop reads the document. -/
def executeScripts (env : Env) (id : String) (s : State) : State :=
  match s.page.childrenOf id with
  | none => s
  | some kids =>
      (scriptsIn kids).foldl (fun st script => appendHead (newScript env script) st)
        { s with page := s.page.setChildren id (removeScripts kids) }

/-- The effect on the container of `initializeComponentAnimations` and
`replaceDataPlaceholders`. -/
def decorateContainer (env : Env) (id : String) (s : State) : State :=
  match s.page.childrenOf id with
  | none => s
  | some kids => { s with page := s.page.setChildren id (env.decorate kids) }

/-- The method `processComponent(container)`: scripts are executed, then the
container is decorated.  `setupComponentEvents` and `initializeMobileMenu`
only register event listeners. -/
def processComponent (env : Env) (id : String) (s : State) : State :=
  decorateContainer env id (executeScripts env id s)

/-- The markup that `showComponentError` writes for `componentPath`. -/
def errorHtml (componentPath : String) : String :=
  "\n            <div class=\"component-error\">\n                <p>Failed to load component: "
    ++ componentPath
    ++ "</p>\n                <button onclick=\"location.reload()\" class=\"btn\">Retry</button>\n            </div>\n        "

/-- The method `showComponentError(placeholder, componentPath)`. -/
def showComponentError (env : Env) (id componentPath : String) (s : State) : State :=
  setInnerHTML env id (errorHtml componentPath) s

/-- The body of the `try` block of `loadComponent`, for a placeholder that was
found. -/
def loadBody (env : Env) (id componentPath : String) (net : FetchOutcome) (s : State) :
    Completion State :=
  match s.cache.get? componentPath with
  | some cached =>
      .normal (processComponent env id (setInnerHTML env id cached s))
  | none =>
      let s1 := { s with log := s.log ++ [Effect.fetch componentPath] }
      match net with
      | .networkError => .throw "TypeError: Failed to fetch" s1
      | .response status body =>
          if responseOk status = false then
            .throw ("HTTP error! status: " ++ toString status) s1
          else
            match body with
            | none => .throw "TypeError: Failed to read body" s1
            | some html =>
                let s2 := { s1 with cache := s1.cache.set componentPath html }
                .normal (processComponent env id (setInnerHTML env id html s2))

/-- The method `loadComponent(placeholderId, componentPath)`; `net` is what the
network answers if the call fetches. -/
def loadComponent (env : Env) (placeholderId componentPath : String) (net : FetchOutcome)
    (s : State) : Completion State :=
  match s.page.getElementById placeholderId with
  | none => .normal s
  | some _ =>
      tryCatch (loadBody env placeholderId componentPath net s)
        (fun _ st => .normal (showComponentError env placeholderId componentPath st))

/-- The method `clearCache()`. -/
def clearCache (s : State) : State :=
  { s with cache := [] }

/-- The method `preloadComponent(componentPath)` with its promise chain run to
the end: the body text of whatever response arrives is stored. -/
def preloadComponent (componentPath : String) (net : FetchOutcome) (s : State) : State :=
  let s1 := { s with log := s.log ++ [Effect.fetch componentPath] }
  match net with
  | .networkError => s1
  | .response _ body =>
      match body with
      | none => s1
      | some html => { s1 with cache := s1.cache.set componentPath html }

/-- One call on a `ComponentBuilder` instance. -/
inductive Op where
  | loadComponent (placeholderId componentPath : String) (net : FetchOutcome)
  | preloadComponent (componentPath : String) (net : FetchOutcome)
  | clearCache
  deriving DecidableEq

/-- The state after one call. -/
def step (env : Env) (s : State) : Op → State
  | .loadComponent id path net => (loadComponent env id path net s).state
  | .preloadComponent path net => preloadComponent path net s
  | .clearCache => clearCache s

/-- The state after a sequence of calls, each run to completion before the
next. -/
def run (env : Env) (s : State) (ops : List Op) : State :=
  ops.foldl (step env) s

end ComponentBuilder

/-! ## `GameWebsite` (src/js/main.js) -/

namespace GameWebsite

/-- Whether the document holds a script element whose `src` attribute is
`src`. -/
def existsScriptWithSrc (p : Page) (src : String) : Bool :=
  p.scripts.any (fun e => getAttribute "src" e.attrs = some src)

/-- Whether one of the elements `document.querySelectorAll("script:not([src])")`
has the text `text`. -/
def existsInlineWithText (p : Page) (text : String) : Bool :=
  (p.scripts.filter (fun e => getAttribute "src" e.attrs = none)).any
    (fun e => e.textContent = text)

/-- One round of the `forEach` of `executeScripts`, without the write of
`dataset.processed`.  The lookup by `src` goes through a selector built from
`script.src` and throws when that selector is invalid. -/
def scriptStep (env : Env) (s : State) (script : Node) : Completion State :=
  if datasetProcessed script.attrs then .normal s
  else if scriptSrc env script ≠ "" then
    match env.cssString (scriptSrc env script) with
    | none => .throw "SyntaxError: not a valid selector" s
    | some v =>
        if existsScriptWithSrc s.page v then .normal s
        else .normal (appendHead (Node.elem "script" [("src", scriptSrc env script)] []) s)
  else
    if existsInlineWithText s.page script.textContent then .normal s
    else .normal (appendHead (Node.elem "script" [] (textNodes script.textContent)) s)

/-- The rounds of the `forEach` over the scripts of the container, from round
number `k` on: how the loop ends, and the number of the round that threw, or
of the round after the last. -/
def forEachScript (env : Env) : List Node → Nat → State → Completion State × Nat
  | [], k, s => (.normal s, k)
  | script :: rest, k, s =>
      match scriptStep env s script with
      | .normal s1 => forEachScript env rest (k + 1) s1
      | .throw e s1 => (.throw e s1, k)

/-- The method `executeScripts(container)`.  The scripts of the container stay
in place; each one that is not skipped as processed is looked up in the whole
document by `src` or by text, and a copy goes to the head when the lookup
finds nothing.  Every script whose round came to its end is marked
`data-processed`: all of them when the loop ends, those before the throwing
round otherwise.  The marks are written last here, no lookup reads them. -/
def executeScripts (env : Env) (id : String) (s : State) : Completion State :=
  match s.page.childrenOf id with
  | none => .normal s
  | some kids =>
      match forEachScript env (scriptsIn kids) 0 s with
      | (.normal s1, _) =>
          .normal { s1 with page := s1.page.setChildren id (markProcessedIn kids) }
      | (.throw e s1, k) =>
          .throw e { s1 with page := s1.page.setChildren id (markProcessedFirstIn k kids).1 }

/-- The body of the `try` block of `loadComponent`. -/
def loadBody (env : Env) (id componentPath : String) (net : FetchOutcome) (s : State) :
    Completion State :=
  let s1 := { s with log := s.log ++ [Effect.fetch componentPath] }
  match net with
  | .networkError => .throw "TypeError: Failed to fetch" s1
  | .response status body =>
      if responseOk status then
        match body with
        | none => .throw "TypeError: Failed to read body" s1
        | some html => executeScripts env id (setInnerHTML env id html s1)
      else .normal s1

/-- The method `loadComponent(placeholderId, componentPath)`. -/
def loadComponent (env : Env) (placeholderId componentPath : String) (net : FetchOutcome)
    (s : State) : Completion State :=
  match s.page.getElementById placeholderId with
  | none => .normal s
  | some _ =>
      tryCatch (loadBody env placeholderId componentPath net s) (fun _ st => .normal st)

end GameWebsite

/-! ## Concrete pages and fragments used in the examples -/

/-- A browser on `https://skillarenalegends.com/`: a fragment that is a single
script tag parses to that script element, any other text to a text node;
absolute `https` URLs resolve to themselves, others against the site root; a
selector text without double quote, backslash or control character stands for
itself, and no example uses another one. -/
def demoEnv : Env where
  parse := fun html =>
    if html = "<script>window.__x = (window.__x||0)+1</script>" then
      [Node.elem "script" [] [Node.text "window.__x = (window.__x||0)+1"]]
    else if html = "<script src=\"https://cdn.example.com/lib.js\"></script>" then
      [Node.elem "script" [("src", "https://cdn.example.com/lib.js")] []]
    else if html = "<p>new</p>" then
      [Node.elem "p" [] [Node.text "new"]]
    else [Node.text html]
  resolve := fun v =>
    if v = "https://cdn.example.com/lib.js" then v else "https://skillarenalegends.com/" ++ v
  cssString := fun text =>
    if text.data.any (fun c => decide (c = '"') || decide (c = Char.ofNat 92)
        || decide (c.toNat < 32)) then none
    else some text
  decorate := fun kids => kids

/-- A page with two empty mount points `a` and `b` in the body. -/
def demoPage : Page :=
  { head := [],
    body := [Node.elem "div" [("id", "a")] [], Node.elem "div" [("id", "b")] []] }

/-- A fresh `ComponentBuilder` on `demoPage`. -/
def demoState : State :=
  { cache := [], page := demoPage, log := [] }

/-! ## Observers used in the statements -/

/-- The number of network requests for `url` in a trace. -/
def fetchCount (url : String) (log : List Effect) : Nat :=
  log.countP (Effect.isFetchOf url)

/-- A fetch succeeds when the response is `ok` and its body text can be read. -/
def FetchOutcome.isSuccess : FetchOutcome → Bool
  | .response status (some _) => responseOk status
  | _ => false

namespace ComponentBuilder

/-- Whether the call `op`, started in state `s`, is a `loadComponent` call that
sends a request for `url`. -/
def loadFetches (env : Env) (url : String) (s : State) : Op → Bool
  | .loadComponent id path net =>
      decide (fetchCount url s.log < fetchCount url (step env s (.loadComponent id path net)).log)
  | _ => false

/-- Whether the call `op`, started in state `s`, is a `loadComponent` call that
sends a request for `url` which succeeds. -/
def loadFetchesOk (env : Env) (url : String) (s : State) : Op → Bool
  | .loadComponent id path net =>
      loadFetches env url s (.loadComponent id path net) && net.isSuccess
  | _ => false

/-- The number of requests for `url` sent by the `loadComponent` calls of a
run started in `s`. -/
def loadFetchCount (env : Env) (url : String) : State → List Op → Nat
  | _, [] => 0
  | s, op :: ops =>
      (if loadFetches env url s op then 1 else 0) + loadFetchCount env url (step env s op) ops

/-- The number of successful requests for `url` sent by the `loadComponent`
calls of a run started in `s`. -/
def loadFetchOkCount (env : Env) (url : String) : State → List Op → Nat
  | _, [] => 0
  | s, op :: ops =>
      (if loadFetchesOk env url s op then 1 else 0)
        + loadFetchOkCount env url (step env s op) ops

end ComponentBuilder

namespace GameWebsite

/-- The state after a sequence of awaited `loadComponent` calls, given as
placeholder id, component path and network answer. -/
def run (env : Env) (s : State) (calls : List (String × String × FetchOutcome)) : State :=
  calls.foldl (fun st c => (loadComponent env c.1 c.2.1 c.2.2 st).state) s

end GameWebsite

/-- The script elements in the document head whose `src` attribute is `src`. -/
def headScriptsWithSrc (p : Page) (src : String) : List Node :=
  p.head.filter (fun n =>
    match n with
    | .elem tag attrs _ => tag = "script" ∧ getAttribute "src" attrs = some src
    | .text _ => false)

/-- The script elements in the document head without `src` whose text is `text`. -/
def headInlineScripts (p : Page) (text : String) : List Node :=
  p.head.filter (fun n =>
    match n with
    | .elem tag attrs _ => tag = "script" ∧ getAttribute "src" attrs = none
        ∧ n.textContent = text
    | .text _ => false)

/-- A `ComponentBuilder` on a page whose mount point `a` already holds an
element `A`. -/
def demoFilledState : State :=
  { cache := [],
    page := { head := [],
              body := [Node.elem "div" [("id", "a")] [Node.elem "span" [("id", "A")] []]] },
    log := [] }

/-- The fragment with the counting inline script. -/
def counterFragment : String := "<script>window.__x = (window.__x||0)+1</script>"

/-- A fragment that references an external script. -/
def libFragment : String := "<script src=\"https://cdn.example.com/lib.js\"></script>"


/-! ## Home page sections (src/js/main.js) -/

namespace GameWebsite

/-- The constant `sections` of `loadHomePageContent`: placeholder id and
component path of the six home page sections. -/
def sections : List (String × String) :=
  [("banner-placeholder", "./parts/banner.html"),
   ("advantages-placeholder", "./parts/advantages.html"),
   ("handbook-placeholder", "./parts/handbook.html"),
   ("worldmap-placeholder", "./parts/worldmap.html"),
   ("community-placeholder", "./parts/community.html"),
   ("story-placeholder", "./parts/story.html")]

/-- The loop `for (const section of list) await this.loadComponent(...)`: the
next call starts in the state the awaited call left; a rejected call would end
the loop with that exception.  `net path` is what the network answers to a
request for `path`. -/
def awaitEach (env : Env) (net : String → FetchOutcome) :
    List (String × String) → State → Completion State
  | [], s => .normal s
  | sec :: rest, s =>
      match loadComponent env sec.1 sec.2 (net sec.2) s with
      | .normal s1 => awaitEach env net rest s1
      | .throw e s1 => .throw e s1

/-- The method `loadHomePageContent()`. -/
def loadHomePageContent (env : Env) (net : String → FetchOutcome) (s : State) :
    Completion State :=
  awaitEach env net sections s

/-- The calls that the loop makes for a list of sections, in the form taken by
`run`. -/
def calls (net : String → FetchOutcome) (l : List (String × String)) :
    List (String × String × FetchOutcome) :=
  l.map (fun sec => (sec.1, sec.2, net sec.2))

end GameWebsite

/-- A home page with the six section mounts, all empty. -/
def demoHomeState : State :=
  { cache := [],
    page :=
      { head := [],
        body := [Node.elem "div" [("id", "banner-placeholder")] [],
                 Node.elem "div" [("id", "advantages-placeholder")] [],
                 Node.elem "div" [("id", "handbook-placeholder")] [],
                 Node.elem "div" [("id", "worldmap-placeholder")] [],
                 Node.elem "div" [("id", "community-placeholder")] [],
                 Node.elem "div" [("id", "story-placeholder")] []] },
    log := [] }

/-! ## Cookie consent (src/js/cookie-consent.js) -/

namespace CookieConsent

/-- The browser storage `localStorage`: keys with their string values. -/
abbrev Storage := List (String × String)

/-- The call `localStorage.getItem(key)`, `null` when the key is absent. -/
def Storage.getItem : Storage → String → Option String
  | [], _ => none
  | (k, v) :: rest, key => if k = key then some v else Storage.getItem rest key

/-- The storage after `localStorage.setItem(key, value)`. -/
def Storage.setItem : Storage → String → String → Storage
  | [], key, value => [(key, value)]
  | (k, v) :: rest, key, value =>
      if k = key then (k, value) :: rest else (k, v) :: Storage.setItem rest key value

/-- The storage after `localStorage.removeItem(key)`. -/
def Storage.removeItem : Storage → String → Storage
  | [], _ => []
  | (k, v) :: rest, key =>
      if k = key then Storage.removeItem rest key else (k, v) :: Storage.removeItem rest key

/-- What the code reads and writes of the cookie bar element: `style.display`
and the class list. -/
structure CookieBar where
  display : String
  classList : List String
  deriving DecidableEq

/-- The storage and the `cookieBar` field of a `CookieConsent` instance
(`null` when the page has no element `cookie-consent`). -/
structure Consent where
  storage : Storage
  cookieBar : Option CookieBar
  deriving DecidableEq

/-- The field `storageKey`. -/
def storageKey : String := "cookieConsentAccepted"

/-- The call `classList.add(name)`. -/
def classListAdd (name : String) (classes : List String) : List String :=
  if name ∈ classes then classes else classes ++ [name]

/-- The method `hideCookieBar()`. -/
def hideCookieBar (c : Consent) : Consent :=
  { c with cookieBar := c.cookieBar.map (fun b => { b with display := "none" }) }

/-- The method `showCookieBar()`. -/
def showCookieBar (c : Consent) : Consent :=
  { c with cookieBar := c.cookieBar.map (fun b =>
      { display := "block", classList := classListAdd "fade-in-up" b.classList }) }

/-- The method `checkConsentStatus()`. -/
def checkConsentStatus (c : Consent) : Consent :=
  if c.storage.getItem storageKey = some "true" then hideCookieBar c else showCookieBar c

/-- The method `acceptCookies()`.  `triggerConsentEvent` and `trackConsent`
notify listeners and analytics and change neither the storage nor the bar. -/
def acceptCookies (c : Consent) : Consent :=
  hideCookieBar { c with storage := c.storage.setItem storageKey "true" }

/-- The method `hasConsent()`. -/
def hasConsent (c : Consent) : Bool :=
  decide (c.storage.getItem storageKey = some "true")

/-- The method `clearConsent()`. -/
def clearConsent (c : Consent) : Consent :=
  showCookieBar { c with storage := c.storage.removeItem storageKey }

/-- One of the two calls that change the stored consent. -/
inductive Call where
  | acceptCookies
  | clearConsent
  deriving DecidableEq

/-- The instance after one call. -/
def step (c : Consent) : Call → Consent
  | .acceptCookies => acceptCookies c
  | .clearConsent => clearConsent c

/-- The instance after a sequence of calls. -/
def run (c : Consent) (calls : List Call) : Consent :=
  calls.foldl step c

end CookieConsent

/-! ## String methods -/

/-- The characters of `s` with the first occurrence of `pat` replaced by `rep`;
unchanged when `pat` does not occur. -/
def replaceFirst (pat rep : List Char) : List Char → List Char
  | [] => if pat.isPrefixOf [] then rep else []
  | c :: cs =>
      if pat.isPrefixOf (c :: cs) then rep ++ (c :: cs).drop pat.length
      else c :: replaceFirst pat rep cs

/-- The call `s.replace(pat, rep)` with a string pattern. -/
def jsReplace (s pat rep : String) : String :=
  String.mk (replaceFirst pat.data rep.data s.data)

/-- The call `s.startsWith(pre)`. -/
def jsStartsWith (s pre : String) : Bool :=
  pre.data.isPrefixOf s.data

/-- Whether `sub` occurs in a list of characters. -/
def includesChars (sub : List Char) : List Char → Bool
  | [] => sub.isPrefixOf []
  | c :: cs => sub.isPrefixOf (c :: cs) || includesChars sub cs

/-- The call `s.includes(sub)`. -/
def jsIncludes (s sub : String) : Bool :=
  includesChars sub.data s.data

/-! ## Navigation links (src/js/builder.js) -/

namespace ComponentBuilder

/-- What a click on a navigation link touches: the path of the page shown
(`window.location.pathname`), the URL assigned to `window.location.href` by the
handler (the browser then loads it), the field `currentPage` of
`window.gameWebsite`, and whether the default action of the click, following
the link, was cancelled with `preventDefault`.  `currentPage` is `none` when
`window.gameWebsite` is not set. -/
structure Window where
  pathname : String
  assignedHref : Option String
  currentPage : Option String
  defaultPrevented : Bool
  deriving DecidableEq

/-- The method `getCurrentPage()`. -/
def getCurrentPage (pathname : String) : String :=
  if jsIncludes pathname "tung-news" then "news"
  else if jsIncludes pathname "tung-contacts" then "contacts"
  else if jsIncludes pathname "tung-privacy" then "privacy"
  else if jsIncludes pathname "tung-cookies" then "cookies"
  else if jsIncludes pathname "tung-disclaimer" then "disclaimer"
  else "home"

/-- The method `navigateToPage(href)`. -/
def navigateToPage (href : String) (w : Window) : Window :=
  let page := jsReplace (jsReplace href "./" "") ".html" ""
  if page = "index" ∨ page = "" then w
  else { w with currentPage := w.currentPage.map (fun _ => page), assignedHref := some href }

/-- The click listener that `setupComponentEvents` puts on a navigation link
whose `href` attribute is `href` (`none` when the link has no such attribute). -/
def navLinkClick (href : Option String) (w : Window) : Window :=
  match href with
  | none => w
  | some h =>
      if h ≠ "" ∧ jsStartsWith h "./" then navigateToPage h { w with defaultPrevented := true }
      else w

/-- The URL the browser goes to after the click, `none` when it stays on the
page shown: the assigned URL, else the link itself unless the default action
was cancelled. -/
def destination (href : Option String) (w : Window) : Option String :=
  match (navLinkClick href w).assignedHref with
  | some target => some target
  | none => if (navLinkClick href w).defaultPrevented then none else href

end ComponentBuilder

/-! ## News page (src/js/news.js) -/

/-- The characters that the class `\s` of a regular expression and
`String.trim` treat as white space. -/
def isJsSpace (c : Char) : Bool :=
  decide (c.toNat ∈ [9, 10, 11, 12, 13, 32, 160, 5760, 8232, 8233, 8239, 8287, 12288, 65279])
    || (decide (8192 ≤ c.toNat) && decide (c.toNat ≤ 8202))

namespace News

/-- The apostrophe. -/
def apostrophe : Char := Char.ofNat 39

/-- The backslash. -/
def backslash : Char := Char.ofNat 92

/-- The group `([^X]+)` followed by the character `X` itself, at the start of
the input: the longest run of other characters, which has to be non-empty and
has to end at an `X`.  The result is the run and what follows the `X`.  A
shorter run cannot match, since the character after it would not be `X`. -/
def groupUntil (stop : Char) (s : List Char) : Option (List Char × List Char) :=
  match s.span (fun c => c ≠ stop) with
  | ([], _) => none
  | (_ :: _, []) => none
  | (c :: cs, _ :: rest) => some (c :: cs, rest)

/-- A match of `/openModal\('([^']+)',\s*'([^']+)'/` that starts at the
beginning of the input: the two captured groups. -/
def openModalAt (s : List Char) : Option (List Char × List Char) :=
  if "openModal(".data.isPrefixOf s then
    match s.drop "openModal(".length with
    | q :: rest =>
        if q = apostrophe then
          match groupUntil apostrophe rest with
          | some (g1, comma :: rest1) =>
              if comma = ',' then
                match rest1.dropWhile isJsSpace with
                | q2 :: rest2 =>
                    if q2 = apostrophe then
                      match groupUntil apostrophe rest2 with
                      | some (g2, _) => some (g1, g2)
                      | none => none
                    else none
                | [] => none
              else none
          | _ => none
        else none
    | [] => none
  else none

/-- The call `content.match(/openModal\('([^']+)',\s*'([^']+)'/)`: the groups
of the leftmost match, `none` when there is no match. -/
def openModalMatch : List Char → Option (List Char × List Char)
  | [] => openModalAt []
  | c :: cs =>
      match openModalAt (c :: cs) with
      | some m => some m
      | none => openModalMatch cs

/-- The call `replace(/\\'/g, "'")`: every backslash that is followed by an
apostrophe is dropped. -/
def unescapeApostrophes : List Char → List Char
  | [] => []
  | [c] => [c]
  | c :: d :: rest =>
      if c = backslash ∧ d = apostrophe then d :: unescapeApostrophes rest
      else c :: unescapeApostrophes (d :: rest)

/-- The expression `a || b` for two attribute values: `a` unless it is `null`
or the empty string. -/
def orElseAttr (a b : Option String) : Option String :=
  match a with
  | some v => if v = "" then b else some v
  | none => b

/-- What the click listener reads: the attributes of the button, and the text
of the title and content elements of the news item around it. -/
structure ReadMore where
  dataContent : Option String
  onclick : Option String
  dataImage : Option String
  itemTitle : String
  itemContent : String
  deriving DecidableEq

/-- The arguments of a call `openModal(title, content, imageUrl)`. -/
structure ModalCall where
  title : String
  content : String
  imageUrl : Option String
  deriving DecidableEq

/-- The value of `fullContent` in the click listener. -/
def fullContent (b : ReadMore) : String :=
  match orElseAttr b.dataContent b.onclick with
  | none => ""
  | some content =>
      if content ≠ "" ∧ jsIncludes content "openModal(" then
        match openModalMatch content.data with
        | some (_, g2) => String.mk (unescapeApostrophes g2)
        | none => ""
      else ""

/-- The click listener of a Read More button: the call of `openModal` it makes. -/
def readMoreClick (b : ReadMore) : ModalCall :=
  if fullContent b ≠ "" then
    { title := b.itemTitle, content := fullContent b, imageUrl := b.dataImage }
  else
    { title := b.itemTitle, content := b.itemContent, imageUrl := b.dataImage }

end News

/-! ## Regular expressions -/

/-- The regular expressions needed for the patterns of the form validation. -/
inductive Regex where
  | fail
  | eps
  | cls (p : Char → Bool)
  | seq (a b : Regex)
  | alt (a b : Regex)
  | star (a : Regex)

/-- The pattern `a+`. -/
def Regex.plus (a : Regex) : Regex :=
  Regex.seq a (Regex.star a)

/-- The strings a regular expression matches as a whole. -/
inductive Regex.Matches : Regex → List Char → Prop where
  | eps : Regex.Matches Regex.eps []
  | cls (p : Char → Bool) (c : Char) : p c = true → Regex.Matches (Regex.cls p) [c]
  | seq (a b : Regex) (s t : List Char) :
      Regex.Matches a s → Regex.Matches b t → Regex.Matches (Regex.seq a b) (s ++ t)
  | altLeft (a b : Regex) (s : List Char) : Regex.Matches a s → Regex.Matches (Regex.alt a b) s
  | altRight (a b : Regex) (s : List Char) : Regex.Matches b s → Regex.Matches (Regex.alt a b) s
  | starNil (a : Regex) : Regex.Matches (Regex.star a) []
  | starCons (a : Regex) (s t : List Char) :
      Regex.Matches a s → Regex.Matches (Regex.star a) t → Regex.Matches (Regex.star a) (s ++ t)

/-- Whether the expression matches the empty string. -/
def Regex.nullable : Regex → Bool
  | .fail => false
  | .eps => true
  | .cls _ => false
  | .seq a b => a.nullable && b.nullable
  | .alt a b => a.nullable || b.nullable
  | .star _ => true

/-- The expression for what may follow the character `c`. -/
def Regex.deriv (c : Char) : Regex → Regex
  | .fail => .fail
  | .eps => .fail
  | .cls p => if p c then .eps else .fail
  | .seq a b =>
      if a.nullable then .alt (.seq (a.deriv c) b) (b.deriv c) else .seq (a.deriv c) b
  | .alt a b => .alt (a.deriv c) (b.deriv c)
  | .star a => .seq (a.deriv c) (.star a)

/-- The call `/^r$/.test(s)`: whether the whole of `s` matches `r`. -/
def Regex.test : Regex → List Char → Bool
  | r, [] => r.nullable
  | r, c :: cs => (r.deriv c).test cs

/-- The call `s.trim()`, on the characters of `s`. -/
def jsTrim (s : List Char) : List Char :=
  ((s.dropWhile isJsSpace).reverse.dropWhile isJsSpace).reverse

/-- The class `[A-Za-z]`. -/
def isAsciiLetter (c : Char) : Bool :=
  (decide (65 ≤ c.toNat) && decide (c.toNat ≤ 90))
    || (decide (97 ≤ c.toNat) && decide (c.toNat ≤ 122))

/-! ## Contact form (src/js/main.js) -/

namespace GameWebsite

/-- The texts under `contact.form.validation` of the site data; a missing key
reads as `undefined`, here `none`. -/
structure ValidationTexts where
  nameRequired : Option String
  emailRequired : Option String
  messageRequired : Option String
  deriving DecidableEq

/-- The object `contact.form` of the site data. -/
structure FormTexts where
  validation : Option ValidationTexts
  success : Option String
  deriving DecidableEq

/-- The object `contact` of the site data. -/
structure ContactData where
  form : Option FormTexts
  deriving DecidableEq

/-- The object `site` of the site data. -/
structure SiteInfo where
  title : String
  description : String
  keywords : String
  deriving DecidableEq

/-- The object `navigation` of the site data. -/
structure NavigationTexts where
  home : String
  news : String
  contacts : String
  privacy : String
  cookies : String
  disclaimer : String
  deriving DecidableEq

/-- The site data `this.data`, as far as the code reads it; a missing object is
`none`. -/
structure SiteData where
  site : Option SiteInfo
  navigation : Option NavigationTexts
  contact : Option ContactData
  deriving DecidableEq

/-- The method `getFallbackData()`. -/
def getFallbackData : SiteData :=
  { site := some
      { title := "Skillarenalegends.com – Tung TungBall and Labububall",
        description :=
          "You must survive in the world of balls. Two friends, Tungball and Labububall, need your help.",
        keywords := "2 Player, 2 Player Games, 2D, Adventure, Arcade, Ball" },
    navigation := some
      { home := "Home",
        news := "News",
        contacts := "Contact",
        privacy := "Privacy Policy",
        cookies := "Cookie Policy",
        disclaimer := "Legal Disclaimer" },
    contact := none }

/-- The value of `this.data` after `loadData()`; `parseJson` stands for
`response.json()`, `none` when it rejects; `net` is what the network answers
to the request for `./data.json`. -/
def loadData (parseJson : String → Option SiteData) (net : FetchOutcome) : SiteData :=
  match net with
  | .networkError => getFallbackData
  | .response status body =>
      if responseOk status then
        match body with
        | none => getFallbackData
        | some text =>
            match parseJson text with
            | some d => d
            | none => getFallbackData
      else getFallbackData

/-- The pattern `[A-Za-z\s]+` of `validateName`. -/
def nameRegex : Regex :=
  Regex.plus (Regex.cls (fun c => isAsciiLetter c || isJsSpace c))

/-- The class `[^\s@]`. -/
def emailChar (c : Char) : Bool :=
  !(isJsSpace c || decide (c = '@'))

/-- The pattern `[^\s@]+@[^\s@]+\.[^\s@]+` of `validateEmail`. -/
def emailRegex : Regex :=
  Regex.seq (Regex.plus (Regex.cls emailChar))
    (Regex.seq (Regex.cls (fun c => decide (c = '@')))
      (Regex.seq (Regex.plus (Regex.cls emailChar))
        (Regex.seq (Regex.cls (fun c => decide (c = '.')))
          (Regex.plus (Regex.cls emailChar)))))

/-- The method `validateName(name)`. -/
def validateName (name : String) : Bool :=
  nameRegex.test (jsTrim name.data)

/-- The method `validateEmail(email)`. -/
def validateEmail (email : String) : Bool :=
  emailRegex.test (jsTrim email.data)

/-- What `handleContactForm` does to the page. -/
inductive FormAction where
  | preventDefault
  | showFormError (fieldName : String) (message : Option String)
  | reset
  | showSuccessMessage (message : Option String)
  deriving DecidableEq

/-- The value of `this.data.contact.form`, `none` when reading it throws a
`TypeError` because `this.data`, `contact` or `form` is missing. -/
def formTexts (data : Option SiteData) : Option FormTexts :=
  match data with
  | none => none
  | some d =>
      match d.contact with
      | none => none
      | some c => c.form

/-- The value of `this.data.contact.form.validation`, `none` when reading one
of its keys throws a `TypeError`. -/
def validationTexts (data : Option SiteData) : Option ValidationTexts :=
  match formTexts data with
  | none => none
  | some f => f.validation

/-- The call `showFormError(fieldName, this.data.contact.form.validation.key)`
followed by `return`: reading the text comes first and may throw. -/
def failField (data : Option SiteData) (fieldName : String)
    (key : ValidationTexts → Option String) (done : List FormAction) :
    Completion (List FormAction) :=
  match validationTexts data with
  | none => .throw "TypeError: Cannot read properties of undefined" done
  | some v => .normal (done ++ [FormAction.showFormError fieldName (key v)])

/-- The method `handleContactForm(e)` for a form with the submitted fields
`name`, `email` and `message`: the actions taken, and whether the method
returns or throws. -/
def handleContactForm (data : Option SiteData) (name email message : String) :
    Completion (List FormAction) :=
  if validateName name = false then
    failField data "name" ValidationTexts.nameRequired [FormAction.preventDefault]
  else if validateEmail email = false then
    failField data "email" ValidationTexts.emailRequired [FormAction.preventDefault]
  else if jsTrim message.data = [] then
    failField data "message" ValidationTexts.messageRequired [FormAction.preventDefault]
  else
    match formTexts data with
    | none =>
        .throw "TypeError: Cannot read properties of undefined"
          [FormAction.preventDefault, FormAction.reset]
    | some f =>
        .normal [FormAction.preventDefault, FormAction.reset,
          FormAction.showSuccessMessage f.success]

/-- In the words of the specification: the trimmed name is a non-empty string
of ASCII letters and white space only. -/
def NameAccepted (name : String) : Prop :=
  jsTrim name.data ≠ [] ∧
    ∀ c ∈ jsTrim name.data, isAsciiLetter c = true ∨ isJsSpace c = true

/-- In the words of the specification: the trimmed email has the shape
`local@domain.tld` with the three parts non-empty and free of white space and
of `@`. -/
def EmailAccepted (email : String) : Prop :=
  ∃ l d t : List Char, l ≠ [] ∧ d ≠ [] ∧ t ≠ [] ∧
    (∀ c ∈ l ++ d ++ t, isJsSpace c = false ∧ c ≠ '@') ∧
    jsTrim email.data = l ++ '@' :: d ++ '.' :: t

/-- In the words of the specification: the trimmed message is non-empty. -/
def MessageAccepted (message : String) : Prop :=
  jsTrim message.data ≠ []

/-- Validation texts as `data.json` provides them. -/
def demoValidation : ValidationTexts :=
  { nameRequired := some "Please enter your name",
    emailRequired := some "Please enter a valid email",
    messageRequired := some "Please enter a message" }

/-- The texts of the contact form as `data.json` provides them. -/
def demoForm : FormTexts :=
  { validation := some demoValidation, success := some "Thank you!" }

/-- Site data with the texts of the contact form. -/
def demoData : SiteData :=
  { site := none, navigation := none, contact := some { form := some demoForm } }

end GameWebsite
/-! ## Lemmas on the document tree -/

mutual
theorem Node.findById_setChildren (id : String) (kids : List Node) :
    ∀ (n e : Node), n.findById id = some e →
      ∃ tag attrs, (n.setChildren id kids).findById id = some (Node.elem tag attrs kids)
  | .text _, e, h => by simp [Node.findById] at h
  | .elem tag attrs old, e, h => by
      by_cases hid : getAttribute "id" attrs = some id
      · exact ⟨tag, attrs, by simp [Node.setChildren, Node.findById, hid]⟩
      · simp only [Node.findById, hid, if_false] at h
        obtain ⟨t, a, ht⟩ := findByIdIn_setChildrenIn id kids old e h
        exact ⟨t, a, by simp [Node.setChildren, Node.findById, hid, ht]⟩
theorem findByIdIn_setChildrenIn (id : String) (kids : List Node) :
    ∀ (l : List Node) (e : Node), findByIdIn id l = some e →
      ∃ tag attrs, findByIdIn id (setChildrenIn id kids l) = some (Node.elem tag attrs kids)
  | [], e, h => by simp [findByIdIn] at h
  | n :: ns, e, h => by
      cases hn : n.findById id with
      | some e1 =>
          obtain ⟨t, a, ht⟩ := Node.findById_setChildren id kids n e1 hn
          exact ⟨t, a, by simp [setChildrenIn, findByIdIn, hn, ht]⟩
      | none =>
          simp only [findByIdIn, hn] at h
          obtain ⟨t, a, ht⟩ := findByIdIn_setChildrenIn id kids ns e h
          exact ⟨t, a, by simp [setChildrenIn, findByIdIn, hn, ht]⟩
end

theorem findByIdIn_append (id : String) (l r : List Node) :
    findByIdIn id (l ++ r) =
      match findByIdIn id l with
      | some e => some e
      | none => findByIdIn id r := by
  induction l with
  | nil => simp [findByIdIn]
  | cons n ns ih =>
      cases hn : n.findById id with
      | some e => simp [findByIdIn, hn]
      | none => simp [findByIdIn, hn, ih]

theorem findByIdIn_eq_none_of_forall (id : String) (r : List Node)
    (h : ∀ n ∈ r, n.findById id = none) : findByIdIn id r = none := by
  induction r with
  | nil => simp [findByIdIn]
  | cons n ns ih =>
      have hn : n.findById id = none := h n (List.mem_cons_self _ _)
      have hns : ∀ m ∈ ns, m.findById id = none := fun m hm => h m (List.mem_cons_of_mem _ hm)
      simp [findByIdIn, hn, ih hns]

theorem findByIdIn_append_idless (id : String) (l r : List Node)
    (h : ∀ n ∈ r, n.findById id = none) : findByIdIn id (l ++ r) = findByIdIn id l := by
  rw [findByIdIn_append, findByIdIn_eq_none_of_forall id r h]
  cases findByIdIn id l <;> rfl

/-! ## Lemmas on the page -/

theorem Page.childrenOf_setChildren (p : Page) (id : String) (kids : List Node)
    (h : p.getElementById id ≠ none) : (p.setChildren id kids).childrenOf id = some kids := by
  unfold Page.getElementById at h
  by_cases hid : id = ""
  · simp [hid] at h
  · simp only [hid, if_false] at h
    cases hh : findByIdIn id p.head with
    | some e =>
        obtain ⟨t, a, ht⟩ := findByIdIn_setChildrenIn id kids p.head e hh
        simp [Page.childrenOf, Page.getElementById, Page.setChildren, hid, hh, ht, Node.children]
    | none =>
        simp only [hh] at h
        cases hb : findByIdIn id p.body with
        | none => exact absurd hb h
        | some e =>
            obtain ⟨t, a, ht⟩ := findByIdIn_setChildrenIn id kids p.body e hb
            simp [Page.childrenOf, Page.getElementById, Page.setChildren, hid, hh, ht,
              Node.children]

theorem Page.childrenOf_isSome_iff (p : Page) (id : String) :
    p.childrenOf id ≠ none ↔ p.getElementById id ≠ none := by
  unfold Page.childrenOf
  cases p.getElementById id <;> simp

theorem Page.getElementById_extendHead (p : Page) (id : String) (extra : List Node)
    (h : ∀ n ∈ extra, n.findById id = none) :
    Page.getElementById { head := p.head ++ extra, body := p.body } id = p.getElementById id := by
  unfold Page.getElementById
  simp only [findByIdIn_append_idless id p.head extra h]

theorem Page.childrenOf_extendHead (p : Page) (id : String) (extra : List Node)
    (h : ∀ n ∈ extra, n.findById id = none) :
    Page.childrenOf { head := p.head ++ extra, body := p.body } id = p.childrenOf id := by
  unfold Page.childrenOf
  rw [Page.getElementById_extendHead p id extra h]

/-! ## Lemmas on the cache -/

theorem Cache.get?_set_self (c : Cache) (k v : String) : (Cache.set c k v).get? k = some v := by
  induction c with
  | nil => simp [Cache.set, Cache.get?]
  | cons e rest ih =>
      obtain ⟨k1, v1⟩ := e
      by_cases hk : k1 = k
      · simp [Cache.set, Cache.get?, hk]
      · simp [Cache.set, Cache.get?, hk, ih]

theorem Cache.get?_set_other (c : Cache) (k v k2 : String) (hne : k ≠ k2) :
    (Cache.set c k v).get? k2 = c.get? k2 := by
  induction c with
  | nil => simp [Cache.set, Cache.get?, hne]
  | cons e rest ih =>
      obtain ⟨k1, v1⟩ := e
      by_cases hk : k1 = k
      · subst hk
        simp [Cache.set, Cache.get?, hne]
      · by_cases hk2 : k1 = k2
        · subst hk2
          simp [Cache.set, Cache.get?, hk]
        · simp [Cache.set, Cache.get?, hk, hk2, ih]

theorem Cache.get?_set_ne_none (c : Cache) (k v k2 : String) (h : c.get? k2 ≠ none) :
    (Cache.set c k v).get? k2 ≠ none := by
  by_cases hk : k = k2
  · subst hk
    simp [Cache.get?_set_self]
  · rw [Cache.get?_set_other c k v k2 hk]
    exact h

/-! ## Lemmas on `ComponentBuilder` -/

namespace ComponentBuilder

theorem foldl_appendHead (f : Node → Node) (l : List Node) (s : State) :
    l.foldl (fun st x => appendHead (f x) st) s =
      { cache := s.cache,
        page := { head := s.page.head ++ l.map f, body := s.page.body },
        log := s.log ++ l.map (fun x => Effect.appendHead (f x)) } := by
  induction l generalizing s with
  | nil => simp
  | cons x xs ih =>
      rw [List.foldl_cons, ih]
      simp [appendHead, Page.appendHead]

theorem newScript_findById (env : Env) (script : Node) (id : String) :
    (newScript env script).findById id = none := by
  unfold newScript textNodes
  split
  · simp [Node.findById, getAttribute, findByIdIn]
  · split <;> simp [Node.findById, getAttribute, findByIdIn]

theorem executeScripts_eq (env : Env) (id : String) (s : State) (kids : List Node)
    (h : s.page.childrenOf id = some kids) :
    executeScripts env id s =
      { cache := s.cache,
        page := { head := (s.page.setChildren id (removeScripts kids)).head
                    ++ (scriptsIn kids).map (newScript env),
                  body := (s.page.setChildren id (removeScripts kids)).body },
        log := s.log ++ (scriptsIn kids).map (fun x => Effect.appendHead (newScript env x)) } := by
  unfold executeScripts
  rw [h]
  simp only [foldl_appendHead]

theorem processComponent_spec (env : Env) (id : String) (s : State) (kids : List Node)
    (h : s.page.childrenOf id = some kids) :
    (processComponent env id s).cache = s.cache ∧
    (processComponent env id s).log
      = s.log ++ (scriptsIn kids).map (fun x => Effect.appendHead (newScript env x)) ∧
    (processComponent env id s).page.childrenOf id
      = some (env.decorate (removeScripts kids)) := by
  have hres : s.page.getElementById id ≠ none :=
    (Page.childrenOf_isSome_iff s.page id).mp (by rw [h]; simp)
  have hidless : ∀ n ∈ (scriptsIn kids).map (newScript env), n.findById id = none := by
    intro n hn
    obtain ⟨x, _, rfl⟩ := List.mem_map.mp hn
    exact newScript_findById env x id
  have hkids : (executeScripts env id s).page.childrenOf id = some (removeScripts kids) := by
    rw [executeScripts_eq env id s kids h]
    show Page.childrenOf _ id = _
    rw [Page.childrenOf_extendHead (s.page.setChildren id (removeScripts kids)) id _ hidless]
    exact Page.childrenOf_setChildren s.page id _ hres
  have hres2 : (executeScripts env id s).page.getElementById id ≠ none :=
    (Page.childrenOf_isSome_iff _ id).mp (by rw [hkids]; simp)
  unfold processComponent decorateContainer
  rw [hkids]
  refine ⟨?_, ?_, ?_⟩
  · show (executeScripts env id s).cache = s.cache
    rw [executeScripts_eq env id s kids h]
  · show (executeScripts env id s).log = _
    rw [executeScripts_eq env id s kids h]
  · exact Page.childrenOf_setChildren _ id _ hres2

theorem setInnerHTML_childrenOf (env : Env) (id html : String) (s : State)
    (h : s.page.getElementById id ≠ none) :
    (setInnerHTML env id html s).page.childrenOf id = some (env.parse html) :=
  Page.childrenOf_setChildren s.page id _ h

/-- What a call does on a cache hit. -/
theorem loadComponent_hit (env : Env) (m u : String) (net : FetchOutcome) (s : State)
    (html : String) (hm : s.page.getElementById m ≠ none) (hc : s.cache.get? u = some html) :
    ∃ s2, loadComponent env m u net s = .normal s2 ∧ s2.cache = s.cache ∧
      s2.log = s.log ++ Effect.setInnerHTML m html ::
        (scriptsIn (env.parse html)).map (fun x => Effect.appendHead (newScript env x)) ∧
      s2.page.childrenOf m = some (env.decorate (removeScripts (env.parse html))) := by
  obtain ⟨hcache, hlog, hkids⟩ := processComponent_spec env m (setInnerHTML env m html s)
    (env.parse html) (setInnerHTML_childrenOf env m html s hm)
  refine ⟨processComponent env m (setInnerHTML env m html s), ?_, ?_, ?_, hkids⟩
  · unfold loadComponent
    cases hg : s.page.getElementById m with
    | none => exact absurd hg hm
    | some e => simp [loadBody, hc, tryCatch]
  · rw [hcache]; rfl
  · rw [hlog]; simp [setInnerHTML]

/-- What a call does on a cache miss answered by a success. -/
theorem loadComponent_fetched (env : Env) (m u : String) (status : Nat) (html : String)
    (s : State) (hm : s.page.getElementById m ≠ none) (hc : s.cache.get? u = none)
    (hok : responseOk status = true) :
    ∃ s2, loadComponent env m u (.response status (some html)) s = .normal s2 ∧
      s2.cache = s.cache.set u html ∧
      s2.log = s.log ++ Effect.fetch u :: Effect.setInnerHTML m html ::
        (scriptsIn (env.parse html)).map (fun x => Effect.appendHead (newScript env x)) ∧
      s2.page.childrenOf m = some (env.decorate (removeScripts (env.parse html))) := by
  let s1 : State :=
    { cache := s.cache.set u html, page := s.page, log := s.log ++ [Effect.fetch u] }
  have hm1 : s1.page.getElementById m ≠ none := hm
  obtain ⟨hcache, hlog, hkids⟩ := processComponent_spec env m (setInnerHTML env m html s1)
    (env.parse html) (setInnerHTML_childrenOf env m html s1 hm1)
  refine ⟨processComponent env m (setInnerHTML env m html s1), ?_, ?_, ?_, hkids⟩
  · unfold loadComponent
    cases hg : s.page.getElementById m with
    | none => exact absurd hg hm
    | some e => simp [loadBody, hc, hok, tryCatch, s1]
  · rw [hcache]; rfl
  · rw [hlog]; simp [setInnerHTML, s1]

/-- What a call does on a cache miss answered by a failure. -/
theorem loadComponent_failed (env : Env) (m u : String) (net : FetchOutcome) (s : State)
    (hm : s.page.getElementById m ≠ none) (hc : s.cache.get? u = none)
    (hfail : net.isSuccess = false) :
    loadComponent env m u net s = .normal
      { cache := s.cache,
        page := s.page.setChildren m (env.parse (errorHtml u)),
        log := s.log ++ [Effect.fetch u, Effect.setInnerHTML m (errorHtml u)] } := by
  unfold loadComponent
  cases hg : s.page.getElementById m with
  | none => exact absurd hg hm
  | some e =>
      cases net with
      | networkError =>
          simp [loadBody, hc, tryCatch, showComponentError, setInnerHTML]
      | response status body =>
          cases body with
          | none =>
              by_cases hok : responseOk status = true
              · simp [loadBody, hc, hok, tryCatch, showComponentError, setInnerHTML]
              · simp [loadBody, hc, hok, tryCatch, showComponentError, setInnerHTML]
          | some html =>
              have hok : responseOk status = false := by
                simpa [FetchOutcome.isSuccess] using hfail
              simp [loadBody, hc, hok, tryCatch, showComponentError, setInnerHTML]

end ComponentBuilder

namespace ComponentBuilder

theorem fetchCount_append (u : String) (a b : List Effect) :
    fetchCount u (a ++ b) = fetchCount u a + fetchCount u b := by
  simp [fetchCount, List.countP_append]

theorem fetchCount_cons (u : String) (e : Effect) (l : List Effect) :
    fetchCount u (e :: l) = fetchCount u l + (if e.isFetchOf u = true then 1 else 0) := by
  simp [fetchCount, List.countP_cons]

theorem fetchCount_appendHeads (u : String) (f : Node → Node) (l : List Node) :
    fetchCount u (l.map (fun x => Effect.appendHead (f x))) = 0 := by
  induction l with
  | nil => simp [fetchCount]
  | cons x xs ih =>
      rw [List.map_cons, fetchCount_cons, ih]
      simp [Effect.isFetchOf]

theorem loadComponent_missing (env : Env) (m u : String) (net : FetchOutcome) (s : State)
    (hm : s.page.getElementById m = none) : loadComponent env m u net s = .normal s := by
  simp [loadComponent, hm]

/-- A call never drops a cache entry, and changes none that exists. -/
theorem loadComponent_keeps (env : Env) (m p : String) (net : FetchOutcome) (s : State)
    (u h : String) (hc : s.cache.get? u = some h) :
    (loadComponent env m p net s).state.cache.get? u = some h := by
  cases hm : s.page.getElementById m with
  | none => rw [loadComponent_missing env m p net s hm]; exact hc
  | some e =>
      have hm2 : s.page.getElementById m ≠ none := by rw [hm]; simp
      cases hp : s.cache.get? p with
      | some html =>
          obtain ⟨s2, h1, h2, _, _⟩ := loadComponent_hit env m p net s html hm2 hp
          rw [h1]; show s2.cache.get? u = _; rw [h2]; exact hc
      | none =>
          have hne : p ≠ u := by
            intro e; rw [e, hc] at hp; cases hp
          cases hs : net.isSuccess with
          | false =>
              rw [loadComponent_failed env m p net s hm2 hp hs]; exact hc
          | true =>
              cases net with
              | networkError => simp [FetchOutcome.isSuccess] at hs
              | response status body =>
                  cases body with
                  | none => simp [FetchOutcome.isSuccess] at hs
                  | some html =>
                      have hok : responseOk status = true := by
                        simpa [FetchOutcome.isSuccess] using hs
                      obtain ⟨s2, h1, h2, _, _⟩ :=
                        loadComponent_fetched env m p status html s hm2 hp hok
                      rw [h1]; show s2.cache.get? u = _
                      rw [h2, Cache.get?_set_other _ _ _ _ hne]; exact hc

theorem step_keeps (env : Env) (s : State) (op : Op) (u h : String)
    (hc : s.cache.get? u = some h)
    (hop : op ≠ Op.clearCache ∧ ∀ o, op ≠ Op.preloadComponent u o) :
    (step env s op).cache.get? u = some h := by
  cases op with
  | loadComponent m p net => exact loadComponent_keeps env m p net s u h hc
  | clearCache => exact absurd rfl hop.1
  | preloadComponent p net =>
      have hne : p ≠ u := by
        intro e; exact hop.2 net (by rw [e])
      cases net with
      | networkError => exact hc
      | response status body =>
          cases body with
          | none => exact hc
          | some html =>
              show (Cache.set s.cache p html).get? u = _
              rw [Cache.get?_set_other _ _ _ _ hne]; exact hc

theorem run_keeps (env : Env) (ops : List Op) (s : State) (u h : String)
    (hc : s.cache.get? u = some h)
    (hops : ∀ op ∈ ops, op ≠ Op.clearCache ∧ ∀ o, op ≠ Op.preloadComponent u o) :
    (run env s ops).cache.get? u = some h := by
  induction ops generalizing s with
  | nil => exact hc
  | cons op rest ih =>
      show (run env (step env s op) rest).cache.get? u = some h
      exact ih (step env s op)
        (step_keeps env s op u h hc (hops op (List.mem_cons_self _ _)))
        (fun o ho => hops o (List.mem_cons_of_mem _ ho))

/-- Without `clearCache`, a cached URL stays cached. -/
theorem step_stays_cached (env : Env) (s : State) (op : Op) (u : String)
    (hc : s.cache.get? u ≠ none) (hop : op ≠ Op.clearCache) :
    (step env s op).cache.get? u ≠ none := by
  cases op with
  | loadComponent m p net =>
      cases hu : s.cache.get? u with
      | none => exact absurd hu hc
      | some h =>
          show (loadComponent env m p net s).state.cache.get? u ≠ none
          rw [loadComponent_keeps env m p net s u h hu]; simp
  | clearCache => exact absurd rfl hop
  | preloadComponent p net =>
      cases net with
      | networkError => exact hc
      | response status body =>
          cases body with
          | none => exact hc
          | some html => exact Cache.get?_set_ne_none s.cache p html u hc

/-- A `loadComponent` call sends no request for a cached URL. -/
theorem loadFetches_cached (env : Env) (s : State) (op : Op) (u : String)
    (hc : s.cache.get? u ≠ none) : loadFetches env u s op = false := by
  cases op with
  | clearCache => rfl
  | preloadComponent p net => rfl
  | loadComponent m p net =>
      have key : fetchCount u (loadComponent env m p net s).state.log = fetchCount u s.log := by
        cases hm : s.page.getElementById m with
        | none => rw [loadComponent_missing env m p net s hm]; rfl
        | some e =>
            have hm2 : s.page.getElementById m ≠ none := by rw [hm]; simp
            cases hp : s.cache.get? p with
            | some html =>
                obtain ⟨s2, h1, _, h3, _⟩ := loadComponent_hit env m p net s html hm2 hp
                rw [h1]; show fetchCount u s2.log = _
                rw [h3]
                simp [fetchCount_append, fetchCount_cons, fetchCount_appendHeads,
                  Effect.isFetchOf]
            | none =>
                have hne : p ≠ u := by
                  intro e; rw [e] at hp; exact hc hp
                cases hs : net.isSuccess with
                | false =>
                    rw [loadComponent_failed env m p net s hm2 hp hs]
                    show fetchCount u (s.log ++ _) = _
                    simp [fetchCount_append, fetchCount_cons, Effect.isFetchOf, hne]
                    rfl
                | true =>
                    cases net with
                    | networkError => simp [FetchOutcome.isSuccess] at hs
                    | response status body =>
                        cases body with
                        | none => simp [FetchOutcome.isSuccess] at hs
                        | some html =>
                            have hok : responseOk status = true := by
                              simpa [FetchOutcome.isSuccess] using hs
                            obtain ⟨s2, h1, _, h3, _⟩ :=
                              loadComponent_fetched env m p status html s hm2 hp hok
                            rw [h1]; show fetchCount u s2.log = _
                            rw [h3]
                            simp [fetchCount_append, fetchCount_cons, fetchCount_appendHeads,
                              Effect.isFetchOf, hne]
      simp [loadFetches, step, key]

/-- A successful request of a `loadComponent` call leaves the URL cached. -/
theorem cached_of_loadFetchesOk (env : Env) (s : State) (op : Op) (u : String)
    (h : loadFetchesOk env u s op = true) : (step env s op).cache.get? u ≠ none := by
  cases op with
  | clearCache => simp [loadFetchesOk] at h
  | preloadComponent p net => simp [loadFetchesOk] at h
  | loadComponent m p net =>
      simp only [loadFetchesOk, Bool.and_eq_true] at h
      obtain ⟨hf, hs⟩ := h
      cases hu : s.cache.get? u with
      | some x =>
          have := loadFetches_cached env s (.loadComponent m p net) u (by rw [hu]; simp)
          rw [this] at hf; cases hf
      | none =>
          cases hm : s.page.getElementById m with
          | none =>
              simp [loadFetches, step, loadComponent_missing env m p net s hm,
                Completion.state] at hf
          | some e =>
              have hm2 : s.page.getElementById m ≠ none := by rw [hm]; simp
              cases net with
              | networkError => simp [FetchOutcome.isSuccess] at hs
              | response status body =>
                  cases body with
                  | none => simp [FetchOutcome.isSuccess] at hs
                  | some html =>
                      have hok : responseOk status = true := by
                        simpa [FetchOutcome.isSuccess] using hs
                      cases hp : s.cache.get? p with
                      | some cached =>
                          by_cases hpu : p = u
                          · rw [hpu, hu] at hp; cases hp
                          · obtain ⟨s2, h1, _, h3, _⟩ := loadComponent_hit env m p
                              (.response status (some html)) s cached hm2 hp
                            simp only [loadFetches, step, h1, Completion.state, h3] at hf
                            simp [fetchCount_append, fetchCount_cons, fetchCount_appendHeads,
                              Effect.isFetchOf] at hf
                      | none =>
                          obtain ⟨s2, h1, h2, h3, _⟩ :=
                            loadComponent_fetched env m p status html s hm2 hp hok
                          by_cases hpu : p = u
                          · show (loadComponent env m p _ s).state.cache.get? u ≠ none
                            rw [h1]; show s2.cache.get? u ≠ none
                            rw [h2, ← hpu, Cache.get?_set_self]; simp
                          · simp only [loadFetches, step, h1, Completion.state, h3] at hf
                            simp [fetchCount_append, fetchCount_cons, fetchCount_appendHeads,
                              Effect.isFetchOf, hpu] at hf

theorem loadFetchesOk_le (env : Env) (s : State) (op : Op) (u : String)
    (h : loadFetches env u s op = false) : loadFetchesOk env u s op = false := by
  cases op with
  | clearCache => rfl
  | preloadComponent p net => rfl
  | loadComponent m p net => simp [loadFetchesOk, h]

theorem loadFetchCount_cached (env : Env) (u : String) (ops : List Op) (s : State)
    (hops : ∀ op ∈ ops, op ≠ Op.clearCache) (hc : s.cache.get? u ≠ none) :
    loadFetchCount env u s ops = 0 := by
  induction ops generalizing s with
  | nil => rfl
  | cons op rest ih =>
      have h1 := loadFetches_cached env s op u hc
      have h2 := ih (step env s op) (fun o ho => hops o (List.mem_cons_of_mem _ ho))
        (step_stays_cached env s op u hc (hops op (List.mem_cons_self _ _)))
      simp [loadFetchCount, h1, h2]

theorem loadFetchOkCount_le_loadFetchCount (env : Env) (u : String) (ops : List Op)
    (s : State) : loadFetchOkCount env u s ops ≤ loadFetchCount env u s ops := by
  induction ops generalizing s with
  | nil => exact Nat.le_refl _
  | cons op rest ih =>
      have h2 := ih (step env s op)
      cases hf : loadFetches env u s op with
      | false =>
          have := loadFetchesOk_le env s op u hf
          simp [loadFetchCount, loadFetchOkCount, hf, this, h2]
      | true =>
          cases hk : loadFetchesOk env u s op <;>
            simp [loadFetchCount, loadFetchOkCount, hf, hk] <;> omega

theorem run_append (env : Env) (s : State) (a b : List Op) :
    run env s (a ++ b) = run env (run env s a) b := by
  simp [run, List.foldl_append]

end ComponentBuilder

/-! ## The claims -/

/-- C1 as stated fails: on a fresh instance the header is fetched into mount
`a` with body `<p>new</p>`, and later loaded into mount `b`.  With `clearCache`
between the two calls the later call sends a second request and writes what
that request returns.  With a `preloadComponent` of the same URL between them,
answered by HTTP 404, the later call sends no request but writes the text
`Not Found` stored by the preload, not the text of the first fetch. -/
theorem ComponentBuilder.cache_hit_lost :
    (ComponentBuilder.loadComponent demoEnv "b" "./parts/header.html"
        (.response 200 (some "<p>newer</p>"))
        (ComponentBuilder.run demoEnv demoState
          [ComponentBuilder.Op.loadComponent "a" "./parts/header.html"
             (.response 200 (some "<p>new</p>")),
           ComponentBuilder.Op.clearCache])).state.log
      = [Effect.fetch "./parts/header.html",
         Effect.setInnerHTML "a" "<p>new</p>",
         Effect.fetch "./parts/header.html",
         Effect.setInnerHTML "b" "<p>newer</p>"] ∧
    (ComponentBuilder.loadComponent demoEnv "b" "./parts/header.html" .networkError
        (ComponentBuilder.run demoEnv demoState
          [ComponentBuilder.Op.loadComponent "a" "./parts/header.html"
             (.response 200 (some "<p>new</p>")),
           ComponentBuilder.Op.preloadComponent "./parts/header.html"
             (.response 404 (some "Not Found"))])).state.log
      = [Effect.fetch "./parts/header.html",
         Effect.setInnerHTML "a" "<p>new</p>",
         Effect.fetch "./parts/header.html",
         Effect.setInnerHTML "b" "Not Found"] := by
  decide

/-- C1, amended (cache hit).  Let a `loadComponent` call for URL `u` find its
mount, miss the cache and receive a success response with body text `h`.
After any further calls that neither clear the cache nor preload `u`, a
`loadComponent(m, u)` call with a resolvable mount `m` resolves, its first
effect is the write `innerHTML = h` on `m`, and everything it does after that
is appending script elements to the head: it sends no request.  The children
of `m` are then the nodes parsed from `h`, with the scripts taken out and the
decoration applied.  The first call did send one request for `u`. -/
theorem ComponentBuilder.cache_hit_after_success (env : Env) (s0 : State)
    (m0 u h : String) (status : Nat) (mid : List ComponentBuilder.Op) (m : String)
    (net : FetchOutcome)
    (hm0 : s0.page.getElementById m0 ≠ none)
    (hmiss : s0.cache.get? u = none)
    (hok : responseOk status = true)
    (hmid : ∀ op ∈ mid, op ≠ ComponentBuilder.Op.clearCache
      ∧ ∀ o, op ≠ ComponentBuilder.Op.preloadComponent u o)
    (hm : (ComponentBuilder.run env
        (ComponentBuilder.loadComponent env m0 u (.response status (some h)) s0).state
        mid).page.getElementById m ≠ none) :
    fetchCount u (ComponentBuilder.loadComponent env m0 u (.response status (some h)) s0).state.log
      = fetchCount u s0.log + 1 ∧
    ∃ s3 extra,
      ComponentBuilder.loadComponent env m u net
        (ComponentBuilder.run env
          (ComponentBuilder.loadComponent env m0 u (.response status (some h)) s0).state mid)
        = .normal s3 ∧
      s3.log = (ComponentBuilder.run env
          (ComponentBuilder.loadComponent env m0 u (.response status (some h)) s0).state
          mid).log ++ Effect.setInnerHTML m h :: extra ∧
      (∀ e ∈ extra, e.isAppendHead = true) ∧
      (∀ e ∈ Effect.setInnerHTML m h :: extra, e.isFetch = false) ∧
      s3.page.childrenOf m = some (env.decorate (removeScripts (env.parse h))) ∧
      s3.cache.get? u = some h := by
  obtain ⟨s1, h1, hcache, hlog, _⟩ :=
    ComponentBuilder.loadComponent_fetched env m0 u status h s0 hm0 hmiss hok
  rw [h1] at hm ⊢
  simp only [Completion.state] at hm ⊢
  have hc1 : s1.cache.get? u = some h := by rw [hcache, Cache.get?_set_self]
  have hc2 := ComponentBuilder.run_keeps env mid s1 u h hc1 hmid
  obtain ⟨s3, h3, hcache3, hlog3, hkids3⟩ :=
    ComponentBuilder.loadComponent_hit env m u net (ComponentBuilder.run env s1 mid) h hm hc2
  refine ⟨?_, s3, _, h3, hlog3, ?_, ?_, hkids3, ?_⟩
  · rw [hlog]
    simp [ComponentBuilder.fetchCount_append, ComponentBuilder.fetchCount_cons,
      ComponentBuilder.fetchCount_appendHeads, Effect.isFetchOf]
  · intro e he
    obtain ⟨x, _, rfl⟩ := List.mem_map.mp he
    rfl
  · intro e he
    rcases List.mem_cons.mp he with rfl | he
    · rfl
    · obtain ⟨x, _, rfl⟩ := List.mem_map.mp he
      rfl
  · rw [hcache3]; exact hc2

/-- C1 amended, at a concrete input: the counter fragment is fetched into mount
`a`, another component fails to load, then the counter fragment is loaded into
mount `b` while the network is down. -/
theorem ComponentBuilder.cache_hit_after_success_witness :
    fetchCount "./parts/counter.html"
        (ComponentBuilder.loadComponent demoEnv "a" "./parts/counter.html"
          (.response 200 (some counterFragment)) demoState).state.log
      = fetchCount "./parts/counter.html" demoState.log + 1 ∧
    ∃ s3 extra,
      ComponentBuilder.loadComponent demoEnv "b" "./parts/counter.html" .networkError
        (ComponentBuilder.run demoEnv
          (ComponentBuilder.loadComponent demoEnv "a" "./parts/counter.html"
            (.response 200 (some counterFragment)) demoState).state
          [ComponentBuilder.Op.loadComponent "a" "./parts/other.html" .networkError])
        = .normal s3 ∧
      s3.log = (ComponentBuilder.run demoEnv
          (ComponentBuilder.loadComponent demoEnv "a" "./parts/counter.html"
            (.response 200 (some counterFragment)) demoState).state
          [ComponentBuilder.Op.loadComponent "a" "./parts/other.html" .networkError]).log
        ++ Effect.setInnerHTML "b" counterFragment :: extra ∧
      (∀ e ∈ extra, e.isAppendHead = true) ∧
      (∀ e ∈ Effect.setInnerHTML "b" counterFragment :: extra, e.isFetch = false) ∧
      s3.page.childrenOf "b"
        = some (demoEnv.decorate (removeScripts (demoEnv.parse counterFragment))) ∧
      s3.cache.get? "./parts/counter.html" = some counterFragment :=
  ComponentBuilder.cache_hit_after_success demoEnv demoState "a" "./parts/counter.html"
    counterFragment 200 [ComponentBuilder.Op.loadComponent "a" "./parts/other.html" .networkError]
    "b" .networkError (by decide) (by decide) (by decide)
    (by
      intro op hop
      rw [List.mem_singleton] at hop
      subst hop
      exact ⟨(by intro e; cases e), (by intro o e; cases e)⟩)
    (by decide)

/-- C2 (missing mount no-op).  When the mount id does not resolve to an element,
both `ComponentBuilder.loadComponent` and `GameWebsite.loadComponent` return
normally and leave the whole state as it was: the cache, the document (head
and every mount) and the trace, so no request is sent. -/
theorem missing_mount_noop (env : Env) (id url : String) (net : FetchOutcome) (s : State)
    (h : s.page.getElementById id = none) :
    ComponentBuilder.loadComponent env id url net s = .normal s ∧
    GameWebsite.loadComponent env id url net s = .normal s := by
  constructor
  · exact ComponentBuilder.loadComponent_missing env id url net s h
  · simp [GameWebsite.loadComponent, h]

/-- C2, at a concrete input: the mount `does-not-exist` on the demo page. -/
theorem missing_mount_noop_witness :
    ComponentBuilder.loadComponent demoEnv "does-not-exist" "/frag.html"
        (.response 200 (some "<p>new</p>")) demoState = .normal demoState ∧
    GameWebsite.loadComponent demoEnv "does-not-exist" "/frag.html"
        (.response 200 (some "<p>new</p>")) demoState = .normal demoState :=
  missing_mount_noop demoEnv "does-not-exist" "/frag.html" (.response 200 (some "<p>new</p>"))
    demoState (by decide)

/-- C3 (fetch failure renders fallback).  For a resolvable mount `m` and an
uncached URL `u`, when the fetch does not succeed (the fetch rejects, the
status is not a success, or the body cannot be read) the call resolves, the
document changes only in that the children of `m` become the parsed error
block of `showComponentError`, whose markup contains `u` followed by the Retry
button; the effects of the call are the request and that one write, so no
script element is appended to the head; the cache is unchanged. -/
theorem ComponentBuilder.fetch_failure_renders_fallback (env : Env) (m u : String)
    (net : FetchOutcome) (s : State)
    (hm : s.page.getElementById m ≠ none) (hmiss : s.cache.get? u = none)
    (hfail : net.isSuccess = false) :
    ∃ s2, ComponentBuilder.loadComponent env m u net s = .normal s2 ∧
      s2.page = s.page.setChildren m (env.parse (ComponentBuilder.errorHtml u)) ∧
      s2.page.childrenOf m = some (env.parse (ComponentBuilder.errorHtml u)) ∧
      s2.log = s.log ++ [Effect.fetch u, Effect.setInnerHTML m (ComponentBuilder.errorHtml u)] ∧
      (∀ e ∈ [Effect.fetch u, Effect.setInnerHTML m (ComponentBuilder.errorHtml u)],
        e.isAppendHead = false) ∧
      s2.cache = s.cache ∧
      (∃ pre post, ComponentBuilder.errorHtml u = pre ++ u
        ++ "</p>\n                <button onclick=\"location.reload()\" class=\"btn\">Retry</button>"
        ++ post) := by
  refine ⟨_, ComponentBuilder.loadComponent_failed env m u net s hm hmiss hfail, rfl,
    Page.childrenOf_setChildren s.page m _ hm, rfl, ?_, rfl, ?_⟩
  · intro e he
    simp only [List.mem_cons, List.mem_singleton, List.not_mem_nil, or_false] at he
    rcases he with rfl | rfl <;> rfl
  · refine ⟨"\n            <div class=\"component-error\">\n                <p>Failed to load component: ",
      "\n            </div>\n        ", ?_⟩
    unfold ComponentBuilder.errorHtml
    rw [String.append_assoc _ _ "\n            </div>\n        "]
    rfl

/-- C3, at a concrete input: the transport reports HTTP 404. -/
theorem ComponentBuilder.fetch_failure_renders_fallback_witness :
    ∃ s2, ComponentBuilder.loadComponent demoEnv "a" "./parts/missing.html"
        (.response 404 (some "Not Found")) demoState = .normal s2 ∧
      s2.page = demoState.page.setChildren "a"
        (demoEnv.parse (ComponentBuilder.errorHtml "./parts/missing.html")) ∧
      s2.page.childrenOf "a"
        = some (demoEnv.parse (ComponentBuilder.errorHtml "./parts/missing.html")) ∧
      s2.log = demoState.log ++ [Effect.fetch "./parts/missing.html",
        Effect.setInnerHTML "a" (ComponentBuilder.errorHtml "./parts/missing.html")] ∧
      (∀ e ∈ [Effect.fetch "./parts/missing.html",
          Effect.setInnerHTML "a" (ComponentBuilder.errorHtml "./parts/missing.html")],
        e.isAppendHead = false) ∧
      s2.cache = demoState.cache ∧
      (∃ pre post, ComponentBuilder.errorHtml "./parts/missing.html" = pre ++ "./parts/missing.html"
        ++ "</p>\n                <button onclick=\"location.reload()\" class=\"btn\">Retry</button>"
        ++ post) :=
  ComponentBuilder.fetch_failure_renders_fallback demoEnv "a" "./parts/missing.html"
    (.response 404 (some "Not Found")) demoState (by decide) (by decide) (by decide)

/-- C4 (script idempotence), evaluated on the code: the counter fragment is
loaded into mount `a` and then into mount `b` of the demo page.  The document
head ends up with two script elements carrying the counter text, one appended
by each call, so the script runs twice. -/
theorem ComponentBuilder.inline_script_appended_twice :
    (ComponentBuilder.run demoEnv demoState
      [ComponentBuilder.Op.loadComponent "a" "./parts/counter.html"
         (.response 200 (some counterFragment)),
       ComponentBuilder.Op.loadComponent "b" "./parts/counter.html"
         (.response 200 (some counterFragment))]).page.head
      = [Node.elem "script" [] [Node.text "window.__x = (window.__x||0)+1"],
         Node.elem "script" [] [Node.text "window.__x = (window.__x||0)+1"]] ∧
    (headInlineScripts (ComponentBuilder.run demoEnv demoState
      [ComponentBuilder.Op.loadComponent "a" "./parts/counter.html"
         (.response 200 (some counterFragment)),
       ComponentBuilder.Op.loadComponent "b" "./parts/counter.html"
         (.response 200 (some counterFragment))]).page
      "window.__x = (window.__x||0)+1").length = 2 := by
  decide

/-- C5 (external script dedup), evaluated on the code: two fragments that
reference `https://cdn.example.com/lib.js` are loaded by
`GameWebsite.loadComponent` into mounts `a` and `b`.  Both requests are sent
and both fragments are injected, yet the head holds no script element with that
source: the lookup by `src` finds the copy inside the mount itself. -/
theorem GameWebsite.external_script_never_appended :
    (GameWebsite.run demoEnv demoState
      [("a", "./parts/banner.html", .response 200 (some libFragment)),
       ("b", "./parts/story.html", .response 200 (some libFragment))]).page.head = [] ∧
    headScriptsWithSrc (GameWebsite.run demoEnv demoState
      [("a", "./parts/banner.html", .response 200 (some libFragment)),
       ("b", "./parts/story.html", .response 200 (some libFragment))]).page
      "https://cdn.example.com/lib.js" = [] ∧
    (GameWebsite.run demoEnv demoState
      [("a", "./parts/banner.html", .response 200 (some libFragment)),
       ("b", "./parts/story.html", .response 200 (some libFragment))]).page.body
      = [Node.elem "div" [("id", "a")]
           [Node.elem "script"
             [("src", "https://cdn.example.com/lib.js"), ("data-processed", "true")] []],
         Node.elem "div" [("id", "b")]
           [Node.elem "script"
             [("src", "https://cdn.example.com/lib.js"), ("data-processed", "true")] []]] := by
  decide

/-- C6 (first-seen script is executed), evaluated on the code: the demo page
holds no script at all; the counter fragment is fetched successfully and
injected into the attached mount `a` by `GameWebsite.loadComponent`.  No script
element is appended to the head: the lookup by text finds the copy that was
just injected, and the script is only marked as processed. -/
theorem GameWebsite.first_seen_inline_script_not_appended :
    demoState.page.scripts = [] ∧
    (GameWebsite.loadComponent demoEnv "a" "./parts/banner.html"
      (.response 200 (some counterFragment)) demoState)
      = .normal
          { cache := [],
            page :=
              { head := [],
                body := [Node.elem "div" [("id", "a")]
                           [Node.elem "script" [("data-processed", "true")]
                             [Node.text "window.__x = (window.__x||0)+1"]],
                         Node.elem "div" [("id", "b")] []] },
            log := [Effect.fetch "./parts/banner.html",
                    Effect.setInnerHTML "a" counterFragment] } := by
  decide

/-- C7 (errors are contained).  For every document, mount id, URL, cache content
and network answer (success, non-success status, rejected fetch, unreadable
body), `ComponentBuilder.loadComponent` and `GameWebsite.loadComponent` end
normally: the promise resolves, it never rejects. -/
theorem loadComponent_never_rejects (env : Env) (id url : String) (net : FetchOutcome)
    (s : State) :
    (ComponentBuilder.loadComponent env id url net s).isNormal = true ∧
    (GameWebsite.loadComponent env id url net s).isNormal = true := by
  constructor
  · unfold ComponentBuilder.loadComponent ComponentBuilder.loadBody
    cases s.page.getElementById id with
    | none => rfl
    | some e =>
        cases s.cache.get? url with
        | some cached => rfl
        | none =>
            cases net with
            | networkError => rfl
            | response status body =>
                cases hok : responseOk status <;> cases body <;>
                  simp [tryCatch, Completion.isNormal, hok]
  · unfold GameWebsite.loadComponent
    cases s.page.getElementById id with
    | none => rfl
    | some e =>
        show (tryCatch (GameWebsite.loadBody env id url net s)
          (fun _ st => .normal st)).isNormal = true
        cases GameWebsite.loadBody env id url net s <;> rfl

/-- C8 as stated fails: three runs on a fresh instance in each of which two
requests are sent for one URL.  A failed fetch is not cached and the next call
fetches again; `clearCache` empties the cache and the next call fetches again;
`preloadComponent` fetches without looking at the cache. -/
theorem ComponentBuilder.more_than_one_fetch :
    ¬ (fetchCount "./parts/header.html" (ComponentBuilder.run demoEnv demoState
        [ComponentBuilder.Op.loadComponent "a" "./parts/header.html" .networkError,
         ComponentBuilder.Op.loadComponent "a" "./parts/header.html"
           (.response 200 (some "<p>new</p>"))]).log ≤ 1) ∧
    ¬ (fetchCount "./parts/header.html" (ComponentBuilder.run demoEnv demoState
        [ComponentBuilder.Op.loadComponent "a" "./parts/header.html"
           (.response 200 (some "<p>new</p>")),
         ComponentBuilder.Op.clearCache,
         ComponentBuilder.Op.loadComponent "a" "./parts/header.html"
           (.response 200 (some "<p>new</p>"))]).log ≤ 1) ∧
    ¬ (fetchCount "./parts/header.html" (ComponentBuilder.run demoEnv demoState
        [ComponentBuilder.Op.preloadComponent "./parts/header.html"
           (.response 200 (some "<p>new</p>")),
         ComponentBuilder.Op.preloadComponent "./parts/header.html"
           (.response 200 (some "<p>new</p>"))]).log ≤ 1) := by
  decide

/-- C8, amended.  In every run of `ComponentBuilder` calls that contains no
`clearCache`, from any state: the `loadComponent` calls send at most one
successful request for a URL `u`; when `u` is cached at the start they send no
request for `u` at all; and after a `loadComponent` call whose request for `u`
succeeded, the `loadComponent` calls of the rest of the run send no request
for `u`. -/
theorem ComponentBuilder.at_most_one_successful_fetch (env : Env) (u : String)
    (ops : List ComponentBuilder.Op) (s : State)
    (hops : ∀ op ∈ ops, op ≠ ComponentBuilder.Op.clearCache) :
    ComponentBuilder.loadFetchOkCount env u s ops ≤ 1 ∧
    (s.cache.get? u ≠ none → ComponentBuilder.loadFetchCount env u s ops = 0) ∧
    (∀ a op b, ops = a ++ op :: b →
      ComponentBuilder.loadFetchesOk env u (ComponentBuilder.run env s a) op = true →
      ComponentBuilder.loadFetchCount env u (ComponentBuilder.run env s (a ++ [op])) b = 0) := by
  refine ⟨?_, ComponentBuilder.loadFetchCount_cached env u ops s hops, ?_⟩
  · induction ops generalizing s with
    | nil => simp [ComponentBuilder.loadFetchOkCount]
    | cons op rest ih =>
        have hrest : ∀ o ∈ rest, o ≠ ComponentBuilder.Op.clearCache :=
          fun o ho => hops o (List.mem_cons_of_mem _ ho)
        cases hk : ComponentBuilder.loadFetchesOk env u s op with
        | false =>
            have := ih (ComponentBuilder.step env s op) hrest
            simpa [ComponentBuilder.loadFetchOkCount, hk] using this
        | true =>
            have hc := ComponentBuilder.cached_of_loadFetchesOk env s op u hk
            have h0 := ComponentBuilder.loadFetchCount_cached env u rest
              (ComponentBuilder.step env s op) hrest hc
            have hle := ComponentBuilder.loadFetchOkCount_le_loadFetchCount env u rest
              (ComponentBuilder.step env s op)
            simp only [ComponentBuilder.loadFetchOkCount, hk, if_true]
            omega
  · intro a op b hsplit hk
    have hb : ∀ o ∈ b, o ≠ ComponentBuilder.Op.clearCache := by
      intro o ho
      apply hops o
      rw [hsplit]
      exact List.mem_append_right _ (List.mem_cons_of_mem _ ho)
    rw [ComponentBuilder.run_append]
    exact ComponentBuilder.loadFetchCount_cached env u b _ hb
      (ComponentBuilder.cached_of_loadFetchesOk env _ op u hk)

/-- C8 amended, at a concrete input: a failed load, a successful load and a
third load of the header into the demo page. -/
theorem ComponentBuilder.at_most_one_successful_fetch_witness :
    ComponentBuilder.loadFetchOkCount demoEnv "./parts/header.html" demoState
      [ComponentBuilder.Op.loadComponent "a" "./parts/header.html" .networkError,
       ComponentBuilder.Op.loadComponent "a" "./parts/header.html"
         (.response 200 (some "<p>new</p>")),
       ComponentBuilder.Op.loadComponent "b" "./parts/header.html"
         (.response 200 (some "<p>new</p>"))] = 1 ∧
    ComponentBuilder.loadFetchCount demoEnv "./parts/header.html" demoState
      [ComponentBuilder.Op.loadComponent "a" "./parts/header.html" .networkError,
       ComponentBuilder.Op.loadComponent "a" "./parts/header.html"
         (.response 200 (some "<p>new</p>")),
       ComponentBuilder.Op.loadComponent "b" "./parts/header.html"
         (.response 200 (some "<p>new</p>"))] = 2 ∧
    ComponentBuilder.loadFetchOkCount demoEnv "./parts/header.html" demoState
      [ComponentBuilder.Op.loadComponent "a" "./parts/header.html" .networkError,
       ComponentBuilder.Op.loadComponent "a" "./parts/header.html"
         (.response 200 (some "<p>new</p>")),
       ComponentBuilder.Op.loadComponent "b" "./parts/header.html"
         (.response 200 (some "<p>new</p>"))] ≤ 1 :=
  ⟨by decide, by decide,
    (ComponentBuilder.at_most_one_successful_fetch demoEnv "./parts/header.html"
      [ComponentBuilder.Op.loadComponent "a" "./parts/header.html" .networkError,
       ComponentBuilder.Op.loadComponent "a" "./parts/header.html"
         (.response 200 (some "<p>new</p>")),
       ComponentBuilder.Op.loadComponent "b" "./parts/header.html"
         (.response 200 (some "<p>new</p>"))] demoState (by decide)).1⟩

/-- C9 (the cache holds only successful bodies), evaluated on the code:
`preloadComponent` receives HTTP 404 with the body text `Not Found` on a fresh
instance.  The body is stored in the cache, and the next `loadComponent` for
that URL sends no request and writes `Not Found` into the mount.
`loadComponent` itself leaves the cache untouched on the same answer. -/
theorem ComponentBuilder.preload_caches_error_body :
    responseOk 404 = false ∧
    (ComponentBuilder.preloadComponent "./parts/missing.html"
      (.response 404 (some "Not Found")) demoState).cache
      = [("./parts/missing.html", "Not Found")] ∧
    (ComponentBuilder.run demoEnv demoState
      [ComponentBuilder.Op.preloadComponent "./parts/missing.html"
         (.response 404 (some "Not Found")),
       ComponentBuilder.Op.loadComponent "a" "./parts/missing.html" .networkError]).log
      = [Effect.fetch "./parts/missing.html",
         Effect.setInnerHTML "a" "Not Found"] ∧
    (ComponentBuilder.loadComponent demoEnv "a" "./parts/missing.html"
      (.response 404 (some "Not Found")) demoState).state.cache = [] := by
  decide

/-- C10 (replacement discards prior state).  After a successful
`loadComponent` call on a resolvable mount `m` (the URL is cached with text
`h`, or it is not cached and the fetch succeeds with body `h`), the children
of `m` are exactly the nodes parsed from `h`, with its scripts taken out and
the decoration applied, whatever `m` held before; so an element that is below
`m` after the call is one of the elements made from `h`. -/
theorem ComponentBuilder.replacement_discards_prior (env : Env) (m u h : String)
    (net : FetchOutcome) (s : State)
    (hm : s.page.getElementById m ≠ none)
    (hsucc : s.cache.get? u = some h ∨
      (s.cache.get? u = none ∧ ∃ status, responseOk status = true
        ∧ net = .response status (some h))) :
    ∃ s2, ComponentBuilder.loadComponent env m u net s = .normal s2 ∧
      s2.page.childrenOf m = some (env.decorate (removeScripts (env.parse h))) ∧
      (∀ A kids, s2.page.childrenOf m = some kids → A ∈ elementsIn kids →
        A ∈ elementsIn (env.decorate (removeScripts (env.parse h)))) := by
  have key : ∃ s2, ComponentBuilder.loadComponent env m u net s = .normal s2 ∧
      s2.page.childrenOf m = some (env.decorate (removeScripts (env.parse h))) := by
    rcases hsucc with hc | ⟨hc, status, hok, rfl⟩
    · obtain ⟨s2, h1, _, _, h4⟩ := ComponentBuilder.loadComponent_hit env m u net s h hm hc
      exact ⟨s2, h1, h4⟩
    · obtain ⟨s2, h1, _, _, h4⟩ :=
        ComponentBuilder.loadComponent_fetched env m u status h s hm hc hok
      exact ⟨s2, h1, h4⟩
  obtain ⟨s2, h1, h2⟩ := key
  refine ⟨s2, h1, h2, ?_⟩
  intro A kids hk hA
  rw [h2] at hk
  cases hk
  exact hA

/-- C10, at a concrete input: mount `a` holds the element `A`; a fragment with
one paragraph is fetched into it. -/
theorem ComponentBuilder.replacement_discards_prior_witness :
    demoFilledState.page.childrenOf "a" = some [Node.elem "span" [("id", "A")] []] ∧
    ∃ s2, ComponentBuilder.loadComponent demoEnv "a" "./parts/story.html"
        (.response 200 (some "<p>new</p>")) demoFilledState = .normal s2 ∧
      s2.page.childrenOf "a" = some [Node.elem "p" [] [Node.text "new"]] ∧
      (∀ A kids, s2.page.childrenOf "a" = some kids → A ∈ elementsIn kids →
        A ∈ elementsIn [Node.elem "p" [] [Node.text "new"]]) :=
  ⟨by decide,
    ComponentBuilder.replacement_discards_prior demoEnv "a" "./parts/story.html" "<p>new</p>"
      (.response 200 (some "<p>new</p>")) demoFilledState (by decide)
      (Or.inr ⟨by decide, 200, by decide, rfl⟩)⟩

/-! ## Lemmas on `GameWebsite` -/

namespace GameWebsite

theorem scriptStep_log (env : Env) (s : State) (script : Node) :
    ∃ extra, (scriptStep env s script).state.log = s.log ++ extra ∧
      ∀ e ∈ extra, e.isFetch = false := by
  unfold scriptStep
  split
  · exact ⟨[], by simp [Completion.state], by simp⟩
  · split
    · split
      · exact ⟨[], by simp [Completion.state], by simp⟩
      · split
        · exact ⟨[], by simp [Completion.state], by simp⟩
        · exact ⟨[Effect.appendHead _], rfl, by simp [Effect.isFetch]⟩
    · split
      · exact ⟨[], by simp [Completion.state], by simp⟩
      · exact ⟨[Effect.appendHead _], rfl, by simp [Effect.isFetch]⟩

theorem forEachScript_log (env : Env) (l : List Node) (k : Nat) (s : State) :
    ∃ extra, (forEachScript env l k s).1.state.log = s.log ++ extra ∧
      ∀ e ∈ extra, e.isFetch = false := by
  induction l generalizing k s with
  | nil => exact ⟨[], by simp [forEachScript, Completion.state], by simp⟩
  | cons x xs ih =>
      obtain ⟨e1, h1, h1f⟩ := scriptStep_log env s x
      cases hstep : scriptStep env s x with
      | throw err s1 =>
          rw [hstep] at h1
          exact ⟨e1, by simpa [forEachScript, hstep, Completion.state] using h1, h1f⟩
      | normal s1 =>
          rw [hstep] at h1
          simp only [Completion.state] at h1
          obtain ⟨e2, h2, h2f⟩ := ih (k + 1) s1
          refine ⟨e1 ++ e2, ?_, ?_⟩
          · simp only [forEachScript, hstep]
            rw [h2, h1, List.append_assoc]
          · intro e he
            rcases List.mem_append.mp he with h | h
            · exact h1f e h
            · exact h2f e h

theorem executeScripts_log (env : Env) (id : String) (s : State) :
    ∃ extra, (executeScripts env id s).state.log = s.log ++ extra ∧
      ∀ e ∈ extra, e.isFetch = false := by
  unfold executeScripts
  cases s.page.childrenOf id with
  | none => exact ⟨[], by simp [Completion.state], by simp⟩
  | some kids =>
      obtain ⟨extra, h1, h2⟩ := forEachScript_log env (scriptsIn kids) 0 s
      refine ⟨extra, ?_, h2⟩
      simp only []
      cases hf : forEachScript env (scriptsIn kids) 0 s with
      | mk c n =>
          rw [hf] at h1
          cases c with
          | normal s1 => simpa [Completion.state] using h1
          | throw err s1 => simpa [Completion.state] using h1

/-- A call resolves.  Without the placeholder it changes nothing.  With it, the
call adds to the trace its request, followed by effects that are no requests:
none when the fetch does not succeed, the write of the body text first when it
does. -/
theorem loadComponent_trace (env : Env) (id path : String) (net : FetchOutcome) (s : State) :
    ∃ after delta, loadComponent env id path net s = .normal after ∧
      after.log = s.log ++ delta ∧
      (s.page.getElementById id = none → delta = [] ∧ after = s) ∧
      (s.page.getElementById id ≠ none →
        ∃ rest, delta = Effect.fetch path :: rest ∧
          (∀ e ∈ rest, e.isFetch = false) ∧
          (net.isSuccess = false → rest = []) ∧
          (∀ status html, net = .response status (some html) → responseOk status = true →
            ∃ extra, rest = Effect.setInnerHTML id html :: extra)) := by
  unfold loadComponent
  cases hg : s.page.getElementById id with
  | none =>
      exact ⟨s, [], rfl, by simp, fun _ => ⟨rfl, rfl⟩, fun h => absurd rfl h⟩
  | some el =>
      have failed : net.isSuccess = false →
          loadBody env id path net s = .normal { s with log := s.log ++ [Effect.fetch path] }
          ∨ ∃ err, loadBody env id path net s
              = .throw err { s with log := s.log ++ [Effect.fetch path] } := by
        intro hs
        cases net with
        | networkError => exact Or.inr ⟨"TypeError: Failed to fetch", rfl⟩
        | response status body =>
            cases hok : responseOk status with
            | false => exact Or.inl (by simp [loadBody, hok])
            | true =>
                cases body with
                | none =>
                    exact Or.inr ⟨"TypeError: Failed to read body", by simp [loadBody, hok]⟩
                | some html => simp [FetchOutcome.isSuccess, hok] at hs
      cases hs : net.isSuccess with
      | false =>
          refine ⟨{ s with log := s.log ++ [Effect.fetch path] }, [Effect.fetch path], ?_, rfl,
            (fun h => by cases h), (fun _ => ⟨[], rfl, by simp, fun _ => rfl, ?_⟩)⟩
          · rcases failed hs with h | ⟨err, h⟩ <;> simp [h, tryCatch]
          · intro status html hnet hok
            rw [hnet] at hs
            simp [FetchOutcome.isSuccess, hok] at hs
      | true =>
          cases net with
          | networkError => simp [FetchOutcome.isSuccess] at hs
          | response status body =>
              cases body with
              | none => simp [FetchOutcome.isSuccess] at hs
              | some html =>
                  have hok : responseOk status = true := by
                    simpa [FetchOutcome.isSuccess] using hs
                  obtain ⟨extra, hlog, hf⟩ := executeScripts_log env id
                    (setInnerHTML env id html
                      { s with log := s.log ++ [Effect.fetch path] })
                  refine ⟨(executeScripts env id (setInnerHTML env id html
                      { s with log := s.log ++ [Effect.fetch path] })).state,
                    Effect.fetch path :: Effect.setInnerHTML id html :: extra, ?_, ?_,
                    (fun h => by cases h),
                    (fun _ => ⟨_, rfl, ?_, (fun h => by cases h), ?_⟩)⟩
                  · simp only [loadBody, hok, if_true]
                    cases executeScripts env id (setInnerHTML env id html
                      { s with log := s.log ++ [Effect.fetch path] }) <;> rfl
                  · rw [hlog]; simp [setInnerHTML]
                  · intro e he
                    rcases List.mem_cons.mp he with rfl | he
                    · rfl
                    · exact hf e he
                  · intro status2 html2 hnet _
                    cases hnet
                    exact ⟨extra, rfl⟩

theorem run_loads_snoc (env : Env) (s : State) (l : List (String × String × FetchOutcome))
    (c : String × String × FetchOutcome) :
    run env s (l ++ [c]) = (loadComponent env c.1 c.2.1 c.2.2 (run env s l)).state := by
  simp [run, List.foldl_append]

theorem awaitEach_eq_run (env : Env) (net : String → FetchOutcome)
    (l : List (String × String)) (s : State) :
    awaitEach env net l s = .normal (run env s (calls net l)) := by
  induction l generalizing s with
  | nil => rfl
  | cons sec rest ih =>
      obtain ⟨after, delta, h1, _, _⟩ := loadComponent_trace env sec.1 sec.2 (net sec.2) s
      simp only [awaitEach, h1, ih after]
      simp [run, calls, h1, Completion.state]

end GameWebsite

/-! ## Lemmas on `CookieConsent` -/

namespace CookieConsent

theorem Storage.getItem_setItem (st : Storage) (k v : String) :
    (Storage.setItem st k v).getItem k = some v := by
  induction st with
  | nil => simp [Storage.setItem, Storage.getItem]
  | cons e rest ih =>
      obtain ⟨k1, v1⟩ := e
      by_cases hk : k1 = k
      · simp [Storage.setItem, Storage.getItem, hk]
      · simp [Storage.setItem, Storage.getItem, hk, ih]

theorem Storage.getItem_removeItem (st : Storage) (k : String) :
    (Storage.removeItem st k).getItem k = none := by
  induction st with
  | nil => simp [Storage.removeItem, Storage.getItem]
  | cons e rest ih =>
      obtain ⟨k1, v1⟩ := e
      by_cases hk : k1 = k
      · simp [Storage.removeItem, hk, ih]
      · simp [Storage.removeItem, Storage.getItem, hk, ih]

theorem hasConsent_acceptCookies (c : Consent) : hasConsent (acceptCookies c) = true := by
  simp [hasConsent, acceptCookies, hideCookieBar, Storage.getItem_setItem]

theorem hasConsent_clearConsent (c : Consent) : hasConsent (clearConsent c) = false := by
  simp [hasConsent, clearConsent, showCookieBar, Storage.getItem_removeItem]

theorem run_calls_snoc (c : Consent) (l : List Call) (op : Call) :
    run c (l ++ [op]) = step (run c l) op := by
  simp [run, List.foldl_append]

end CookieConsent

/-- C11 (sequential home page loading).  `loadHomePageContent` resolves and
leaves the state of six `loadComponent` calls made one after another for
banner, advantages, handbook, worldmap, community and story, in this order,
whatever the document holds and whatever the network answers: a missing mount
or a failed fetch of one section does not keep the later calls from being
made.  The call for a section starts in the state that the calls for the
sections before it left when they settled.  When its placeholder is missing
then, it changes nothing.  When its placeholder is there, it appends to the
trace the request for its path and after it only effects that are no requests:
none when the fetch fails, the write of the body text into the placeholder
first when it succeeds.  So every section whose placeholder exists is
requested, and every effect of a section comes before the request for the
next.  On the home page with the six placeholders, with HTTP 404 for the
banner and a rejected fetch for the worldmap, the requests are those for the
six paths, in order. -/
theorem GameWebsite.loadHomePageContent_sequential (env : Env)
    (net : String → FetchOutcome) (s : State) :
    GameWebsite.sections.map Prod.snd
      = ["./parts/banner.html", "./parts/advantages.html", "./parts/handbook.html",
         "./parts/worldmap.html", "./parts/community.html", "./parts/story.html"] ∧
    GameWebsite.loadHomePageContent env net s
      = .normal (GameWebsite.run env s (GameWebsite.calls net GameWebsite.sections)) ∧
    (∀ done sec todo, GameWebsite.sections = done ++ sec :: todo →
      ∃ after delta,
        GameWebsite.loadComponent env sec.1 sec.2 (net sec.2)
          (GameWebsite.run env s (GameWebsite.calls net done)) = .normal after ∧
        GameWebsite.run env s (GameWebsite.calls net (done ++ [sec])) = after ∧
        after.log = (GameWebsite.run env s (GameWebsite.calls net done)).log ++ delta ∧
        ((GameWebsite.run env s (GameWebsite.calls net done)).page.getElementById sec.1 = none →
          delta = [] ∧ after = GameWebsite.run env s (GameWebsite.calls net done)) ∧
        ((GameWebsite.run env s (GameWebsite.calls net done)).page.getElementById sec.1 ≠ none →
          ∃ rest, delta = Effect.fetch sec.2 :: rest ∧
            (∀ e ∈ rest, e.isFetch = false) ∧
            ((net sec.2).isSuccess = false → rest = []) ∧
            (∀ status html, net sec.2 = .response status (some html) →
              responseOk status = true →
              ∃ extra, rest = Effect.setInnerHTML sec.1 html :: extra))) ∧
    (GameWebsite.loadHomePageContent demoEnv
        (fun path =>
          if path = "./parts/banner.html" then .response 404 (some "Not Found")
          else if path = "./parts/worldmap.html" then .networkError
          else .response 200 (some "<p>new</p>"))
        demoHomeState).state.log.filter Effect.isFetch
      = [Effect.fetch "./parts/banner.html", Effect.fetch "./parts/advantages.html",
         Effect.fetch "./parts/handbook.html", Effect.fetch "./parts/worldmap.html",
         Effect.fetch "./parts/community.html", Effect.fetch "./parts/story.html"] := by
  refine ⟨rfl, GameWebsite.awaitEach_eq_run env net GameWebsite.sections s, ?_, by decide⟩
  intro done sec todo _
  obtain ⟨after, delta, h1, h2, h3, h4⟩ := GameWebsite.loadComponent_trace env sec.1 sec.2
    (net sec.2) (GameWebsite.run env s (GameWebsite.calls net done))
  refine ⟨after, delta, h1, ?_, h2, h3, h4⟩
  have : GameWebsite.calls net (done ++ [sec])
      = GameWebsite.calls net done ++ [(sec.1, sec.2, net sec.2)] := by
    simp [GameWebsite.calls]
  rw [this, GameWebsite.run_loads_snoc]
  simp [h1, Completion.state]

/-- C12 (cookie consent flag).  After a non-empty sequence of `acceptCookies`
and `clearConsent` calls, `hasConsent()` is true exactly when the last call was
`acceptCookies`; after no call it is what the storage held, false on an empty
storage.  `checkConsentStatus` leaves the storage alone and sets the bar to
`display: none` when the stored value is the string `true`, and otherwise to
`display: block` with the class `fade-in-up`. -/
theorem CookieConsent.consent_follows_last_call (c : CookieConsent.Consent)
    (calls : List CookieConsent.Call) :
    CookieConsent.hasConsent (CookieConsent.run c calls)
      = (match calls.getLast? with
         | some CookieConsent.Call.acceptCookies => true
         | some CookieConsent.Call.clearConsent => false
         | none => CookieConsent.hasConsent c) ∧
    CookieConsent.hasConsent { storage := [], cookieBar := c.cookieBar } = false ∧
    (CookieConsent.checkConsentStatus c).storage = c.storage ∧
    (CookieConsent.checkConsentStatus c).cookieBar
      = c.cookieBar.map (fun b =>
          if c.storage.getItem CookieConsent.storageKey = some "true" then
            { b with display := "none" }
          else
            { display := "block",
              classList := CookieConsent.classListAdd "fade-in-up" b.classList }) := by
  refine ⟨?_, ?_, ?_, ?_⟩
  · rcases List.eq_nil_or_concat calls with rfl | ⟨rest, op, rfl⟩
    · rfl
    · rw [List.concat_eq_append, CookieConsent.run_calls_snoc, List.getLast?_append]
      cases op with
      | acceptCookies =>
          simpa [CookieConsent.step] using CookieConsent.hasConsent_acceptCookies _
      | clearConsent =>
          simpa [CookieConsent.step] using CookieConsent.hasConsent_clearConsent _
  · simp [CookieConsent.hasConsent, CookieConsent.Storage.getItem]
  · unfold CookieConsent.checkConsentStatus
    split <;> rfl
  · unfold CookieConsent.checkConsentStatus
    split
    · next h => simp [CookieConsent.hideCookieBar, h]
    · next h => simp [CookieConsent.showCookieBar, h]

/-- C13 (nav links reach their target), evaluated on the code: the news page
`/tung-news.html` is shown and the link to `./index.html` is clicked.  The
listener cancels the default navigation, `navigateToPage` returns early, no
URL is assigned, and the browser stays on the news page, which is not the
home page the link points to.  On the contacts link the same click does
assign the URL. -/
theorem ComponentBuilder.home_link_dead_on_news_page :
    ComponentBuilder.getCurrentPage "/tung-news.html" = "news" ∧
    jsStartsWith "./index.html" "./" = true ∧
    ComponentBuilder.navLinkClick (some "./index.html")
        { pathname := "/tung-news.html", assignedHref := none, currentPage := some "home",
          defaultPrevented := false }
      = { pathname := "/tung-news.html", assignedHref := none, currentPage := some "home",
          defaultPrevented := true } ∧
    ComponentBuilder.destination (some "./index.html")
        { pathname := "/tung-news.html", assignedHref := none, currentPage := some "home",
          defaultPrevented := false } = none ∧
    ComponentBuilder.destination (some "./tung-contacts.html")
        { pathname := "/tung-news.html", assignedHref := none, currentPage := some "home",
          defaultPrevented := false } = some "./tung-contacts.html" := by
  decide

/-- C14 (data-content takes precedence), evaluated on the code: the button
carries the text `Full story of the tournament` in `data-content` and a call
of `openModal` in `onclick`; the news item shows `Short teaser`.  The listener
takes `data-content`, looks in it for a call of `openModal`, finds none, and
opens the modal with the text of the news item; neither the `data-content`
text nor the `onclick` argument is shown. -/
theorem News.data_content_not_shown :
    News.readMoreClick
        { dataContent := some "Full story of the tournament",
          onclick := some "openModal('Tournament', 'Long text')",
          dataImage := none,
          itemTitle := "Tournament",
          itemContent := "Short teaser" }
      = { title := "Tournament", content := "Short teaser", imageUrl := none } ∧
    News.readMoreClick
        { dataContent := none,
          onclick := some "openModal('Tournament', 'Long text')",
          dataImage := none,
          itemTitle := "Tournament",
          itemContent := "Short teaser" }
      = { title := "Tournament", content := "Long text", imageUrl := none } := by
  decide

/-- C15 (escaped apostrophes are restored), evaluated on the code: the `onclick`
attribute is `openModal('News', 'It\'s here')`.  The second group of the
pattern ends at the first apostrophe, the escaped one, so the content passed
to `openModal` is `It\`, a prefix of the argument with the backslash left in,
and not `It's here`. -/
theorem News.escaped_apostrophe_truncates :
    News.readMoreClick
        { dataContent := none,
          onclick := some "openModal('News', 'It\\'s here')",
          dataImage := none,
          itemTitle := "News",
          itemContent := "Short teaser" }
      = { title := "News", content := "It\\", imageUrl := none } ∧
    String.mk (News.unescapeApostrophes "It\\'s here".data) = "It's here" := by
  decide

/-! ## Lemmas on regular expressions -/

namespace Regex

theorem matches_fail (s : List Char) : ¬ Matches fail s := by
  intro h; cases h

theorem matches_eps_iff (s : List Char) : Matches eps s ↔ s = [] := by
  constructor
  · intro h; cases h; rfl
  · rintro rfl; exact Matches.eps

theorem matches_cls_iff (p : Char → Bool) (s : List Char) :
    Matches (cls p) s ↔ ∃ c, s = [c] ∧ p c = true := by
  constructor
  · intro h; cases h with | cls _ c hc => exact ⟨c, rfl, hc⟩
  · rintro ⟨c, rfl, hc⟩; exact Matches.cls p c hc

theorem matches_seq_iff (a b : Regex) (s : List Char) :
    Matches (seq a b) s ↔ ∃ s1 s2, s = s1 ++ s2 ∧ Matches a s1 ∧ Matches b s2 := by
  constructor
  · intro h; cases h with | seq _ _ s1 s2 h1 h2 => exact ⟨s1, s2, rfl, h1, h2⟩
  · rintro ⟨s1, s2, rfl, h1, h2⟩; exact Matches.seq a b s1 s2 h1 h2

theorem matches_alt_iff (a b : Regex) (s : List Char) :
    Matches (alt a b) s ↔ Matches a s ∨ Matches b s := by
  constructor
  · intro h
    cases h with
    | altLeft _ _ _ h1 => exact Or.inl h1
    | altRight _ _ _ h1 => exact Or.inr h1
  · rintro (h | h)
    · exact Matches.altLeft a b s h
    · exact Matches.altRight a b s h

theorem nullable_iff (r : Regex) : r.nullable = true ↔ Matches r [] := by
  induction r with
  | fail => simp [nullable, matches_fail]
  | eps => simp [nullable, matches_eps_iff]
  | cls p => simp [nullable, matches_cls_iff]
  | seq a b iha ihb =>
      simp only [nullable, Bool.and_eq_true, iha, ihb, matches_seq_iff]
      constructor
      · rintro ⟨h1, h2⟩; exact ⟨[], [], rfl, h1, h2⟩
      · rintro ⟨s1, s2, hs, h1, h2⟩
        have h := List.append_eq_nil.mp hs.symm
        rw [h.1] at h1; rw [h.2] at h2
        exact ⟨h1, h2⟩
  | alt a b iha ihb => simp [nullable, iha, ihb, matches_alt_iff]
  | star a _ => simp [nullable, Matches.starNil]

/-- A non-empty match of `star a` starts with a non-empty match of `a`. -/
theorem matches_star_cons (a : Regex) (c : Char) (s : List Char)
    (h : Matches (star a) (c :: s)) :
    ∃ s1 s2, s = s1 ++ s2 ∧ Matches a (c :: s1) ∧ Matches (star a) s2 := by
  generalize hr : star a = r at h
  generalize hw : c :: s = w at h
  induction h with
  | eps => cases hr
  | cls => cases hr
  | seq => cases hr
  | altLeft => cases hr
  | altRight => cases hr
  | starNil => cases hw
  | starCons a2 u t hu ht _ iht =>
      cases hr
      cases u with
      | nil => exact iht rfl (by simpa using hw)
      | cons d u2 =>
          simp only [List.cons_append, List.cons.injEq] at hw
          obtain ⟨rfl, rfl⟩ := hw
          exact ⟨u2, t, rfl, hu, ht⟩

theorem deriv_iff (r : Regex) (c : Char) (s : List Char) :
    Matches (r.deriv c) s ↔ Matches r (c :: s) := by
  induction r generalizing s with
  | fail => simp [deriv, matches_fail]
  | eps => simp [deriv, matches_fail, matches_eps_iff]
  | cls p =>
      by_cases hp : p c = true
      · simp only [deriv, hp, if_true, matches_eps_iff, matches_cls_iff]
        constructor
        · rintro rfl; exact ⟨c, rfl, hp⟩
        · rintro ⟨d, hd, _⟩
          simp only [List.cons.injEq] at hd
          exact hd.2
      · simp only [deriv, hp, matches_cls_iff]
        constructor
        · intro h; exact absurd h (matches_fail s)
        · rintro ⟨d, hd, hpd⟩
          simp only [List.cons.injEq] at hd
          rw [← hd.1] at hpd
          exact absurd hpd hp
  | seq a b iha ihb =>
      have key : Matches (seq a b) (c :: s) ↔
          (∃ s1 s2, s = s1 ++ s2 ∧ Matches a (c :: s1) ∧ Matches b s2)
            ∨ (Matches a [] ∧ Matches b (c :: s)) := by
        rw [matches_seq_iff]
        constructor
        · rintro ⟨u, t, hut, hu, ht⟩
          cases u with
          | nil =>
              simp only [List.nil_append] at hut
              rw [← hut] at ht
              exact Or.inr ⟨hu, ht⟩
          | cons d u2 =>
              simp only [List.cons_append, List.cons.injEq] at hut
              obtain ⟨rfl, rfl⟩ := hut
              exact Or.inl ⟨u2, t, rfl, hu, ht⟩
        · rintro (⟨s1, s2, rfl, h1, h2⟩ | ⟨h1, h2⟩)
          · exact ⟨c :: s1, s2, rfl, h1, h2⟩
          · exact ⟨[], c :: s, rfl, h1, h2⟩
      rw [key]
      by_cases hn : a.nullable = true
      · have hn2 : Matches a [] := (nullable_iff a).mp hn
        simp only [deriv, hn, if_true, matches_alt_iff, matches_seq_iff, iha, ihb]
        constructor
        · rintro (h | h)
          · exact Or.inl h
          · exact Or.inr ⟨hn2, h⟩
        · rintro (h | ⟨_, h⟩)
          · exact Or.inl h
          · exact Or.inr h
      · have hn2 : ¬ Matches a [] := fun h => hn ((nullable_iff a).mpr h)
        have hn3 : a.nullable = false := by simpa using hn
        simp only [deriv, hn3, Bool.false_eq_true, if_false, matches_seq_iff, iha]
        constructor
        · intro h; exact Or.inl h
        · rintro (h | ⟨h, _⟩)
          · exact h
          · exact absurd h hn2
  | alt a b iha ihb => simp [deriv, matches_alt_iff, iha, ihb]
  | star a iha =>
      simp only [deriv, matches_seq_iff, iha]
      constructor
      · rintro ⟨s1, s2, rfl, h1, h2⟩
        exact Matches.starCons a (c :: s1) s2 h1 h2
      · intro h
        exact matches_star_cons a c s h

/-- The executable test decides the declarative semantics. -/
theorem test_iff (r : Regex) (s : List Char) : r.test s = true ↔ Matches r s := by
  induction s generalizing r with
  | nil => exact nullable_iff r
  | cons c cs ih =>
      show (r.deriv c).test cs = true ↔ _
      rw [ih, deriv_iff]

theorem matches_star_cls_iff (p : Char → Bool) (s : List Char) :
    Matches (star (cls p)) s ↔ ∀ c ∈ s, p c = true := by
  constructor
  · intro h
    generalize hr : star (cls p) = r at h
    induction h with
    | eps => cases hr
    | cls => cases hr
    | seq => cases hr
    | altLeft => cases hr
    | altRight => cases hr
    | starNil => simp
    | starCons a2 u t hu _ _ iht =>
        cases hr
        obtain ⟨d, rfl, hd⟩ := (matches_cls_iff p u).mp hu
        intro c hc
        rcases List.mem_cons.mp hc with rfl | hc
        · exact hd
        · exact iht rfl c hc
  · intro h
    induction s with
    | nil => exact Matches.starNil _
    | cons c cs ih =>
        have h1 : Matches (cls p) [c] := Matches.cls p c (h c (List.mem_cons_self _ _))
        have h2 := ih (fun d hd => h d (List.mem_cons_of_mem _ hd))
        exact Matches.starCons (cls p) [c] cs h1 h2

theorem matches_plus_cls_iff (p : Char → Bool) (s : List Char) :
    Matches (plus (cls p)) s ↔ s ≠ [] ∧ ∀ c ∈ s, p c = true := by
  unfold plus
  rw [matches_seq_iff]
  constructor
  · rintro ⟨s1, s2, rfl, h1, h2⟩
    obtain ⟨d, rfl, hd⟩ := (matches_cls_iff p s1).mp h1
    refine ⟨by simp, ?_⟩
    intro c hc
    rcases List.mem_cons.mp hc with rfl | hc
    · exact hd
    · exact (matches_star_cls_iff p s2).mp h2 c hc
  · rintro ⟨hne, hall⟩
    cases s with
    | nil => exact absurd rfl hne
    | cons c cs =>
        exact ⟨[c], cs, rfl, Matches.cls p c (hall c (List.mem_cons_self _ _)),
          (matches_star_cls_iff p cs).mpr (fun d hd => hall d (List.mem_cons_of_mem _ hd))⟩

end Regex

/-! ## Lemmas on the contact form -/

namespace GameWebsite

theorem validateName_iff (name : String) : validateName name = true ↔ NameAccepted name := by
  unfold validateName NameAccepted nameRegex
  rw [Regex.test_iff, Regex.matches_plus_cls_iff]
  simp only [Bool.or_eq_true]

theorem emailChar_iff (c : Char) : emailChar c = true ↔ isJsSpace c = false ∧ c ≠ '@' := by
  unfold emailChar
  cases isJsSpace c <;> simp

theorem matches_emailRegex_iff (s : List Char) :
    Regex.Matches emailRegex s ↔
      ∃ l d t : List Char, l ≠ [] ∧ d ≠ [] ∧ t ≠ [] ∧
        (∀ c ∈ l ++ d ++ t, isJsSpace c = false ∧ c ≠ '@') ∧
        s = l ++ '@' :: d ++ '.' :: t := by
  unfold emailRegex
  simp only [Regex.matches_seq_iff, Regex.matches_plus_cls_iff, Regex.matches_cls_iff]
  constructor
  · rintro ⟨l, r1, rfl, ⟨hl, hlall⟩, a, r2, rfl, ⟨ca, rfl, hca⟩, d, r3, rfl, ⟨hd, hdall⟩,
      b, t, rfl, ⟨cb, rfl, hcb⟩, ht, htall⟩
    have hca2 : ca = '@' := by simpa using hca
    have hcb2 : cb = '.' := by simpa using hcb
    subst hca2 hcb2
    refine ⟨l, d, t, hl, hd, ht, ?_, by simp⟩
    intro c hc
    rw [List.mem_append, List.mem_append] at hc
    rcases hc with (hc | hc) | hc
    · exact (emailChar_iff c).mp (hlall c hc)
    · exact (emailChar_iff c).mp (hdall c hc)
    · exact (emailChar_iff c).mp (htall c hc)
  · rintro ⟨l, d, t, hl, hd, ht, hall, rfl⟩
    have hl2 : ∀ c ∈ l, emailChar c = true := fun c hc =>
      (emailChar_iff c).mpr (hall c (by simp [hc]))
    have hd2 : ∀ c ∈ d, emailChar c = true := fun c hc =>
      (emailChar_iff c).mpr (hall c (by simp [hc]))
    have ht2 : ∀ c ∈ t, emailChar c = true := fun c hc =>
      (emailChar_iff c).mpr (hall c (by simp [hc]))
    exact ⟨l, '@' :: d ++ '.' :: t, by simp, ⟨hl, hl2⟩, ['@'], d ++ '.' :: t, by simp,
      ⟨'@', rfl, by simp⟩, d, '.' :: t, rfl, ⟨hd, hd2⟩, ['.'], t, rfl, ⟨'.', rfl, by simp⟩,
      ht, ht2⟩

theorem validateEmail_iff (email : String) :
    validateEmail email = true ↔ EmailAccepted email := by
  unfold validateEmail EmailAccepted
  rw [Regex.test_iff, matches_emailRegex_iff]

theorem formTexts_of (d : SiteData) (c : ContactData) (f : FormTexts)
    (hc : d.contact = some c) (hf : c.form = some f) : formTexts (some d) = some f := by
  simp [formTexts, hc, hf]

end GameWebsite

/-- C16 (contact form decision).  Let the loaded data hold `contact.form` with
its `validation` texts.  When the trimmed name is a non-empty string of ASCII
letters and white space, the trimmed email has the shape `local@domain.tld`
(three non-empty parts without white space or `@`) and the trimmed message is
non-empty, `handleContactForm` resets the form and shows the success message,
and it does either of the two only then.  Otherwise it returns after showing
one error, for the first field that fails in the order name, email, message,
and does not reset the form or show the success message. -/
theorem GameWebsite.contact_form_decision (d : GameWebsite.SiteData)
    (c : GameWebsite.ContactData) (f : GameWebsite.FormTexts)
    (v : GameWebsite.ValidationTexts)
    (hc : d.contact = some c) (hf : c.form = some f) (hv : f.validation = some v)
    (name email message : String) :
    (GameWebsite.NameAccepted name → GameWebsite.EmailAccepted email →
      GameWebsite.MessageAccepted message →
      GameWebsite.handleContactForm (some d) name email message
        = .normal [GameWebsite.FormAction.preventDefault, GameWebsite.FormAction.reset,
            GameWebsite.FormAction.showSuccessMessage f.success]) ∧
    ((GameWebsite.FormAction.reset
          ∈ (GameWebsite.handleContactForm (some d) name email message).state
        ∨ ∃ m, GameWebsite.FormAction.showSuccessMessage m
          ∈ (GameWebsite.handleContactForm (some d) name email message).state) →
      GameWebsite.NameAccepted name ∧ GameWebsite.EmailAccepted email
        ∧ GameWebsite.MessageAccepted message) ∧
    (¬ GameWebsite.NameAccepted name →
      GameWebsite.handleContactForm (some d) name email message
        = .normal [GameWebsite.FormAction.preventDefault,
            GameWebsite.FormAction.showFormError "name" v.nameRequired]) ∧
    (GameWebsite.NameAccepted name → ¬ GameWebsite.EmailAccepted email →
      GameWebsite.handleContactForm (some d) name email message
        = .normal [GameWebsite.FormAction.preventDefault,
            GameWebsite.FormAction.showFormError "email" v.emailRequired]) ∧
    (GameWebsite.NameAccepted name → GameWebsite.EmailAccepted email →
      ¬ GameWebsite.MessageAccepted message →
      GameWebsite.handleContactForm (some d) name email message
        = .normal [GameWebsite.FormAction.preventDefault,
            GameWebsite.FormAction.showFormError "message" v.messageRequired]) := by
  have hft := GameWebsite.formTexts_of d c f hc hf
  have hvt : GameWebsite.validationTexts (some d) = some v := by
    simp [GameWebsite.validationTexts, hft, hv]
  have hN : ¬ GameWebsite.NameAccepted name →
      GameWebsite.handleContactForm (some d) name email message
        = .normal [GameWebsite.FormAction.preventDefault,
            GameWebsite.FormAction.showFormError "name" v.nameRequired] := by
    intro hn
    have h1 : GameWebsite.validateName name = false := by
      cases h : GameWebsite.validateName name with
      | false => rfl
      | true => exact absurd ((GameWebsite.validateName_iff name).mp h) hn
    simp [GameWebsite.handleContactForm, h1, GameWebsite.failField, hvt]
  have hE : GameWebsite.NameAccepted name → ¬ GameWebsite.EmailAccepted email →
      GameWebsite.handleContactForm (some d) name email message
        = .normal [GameWebsite.FormAction.preventDefault,
            GameWebsite.FormAction.showFormError "email" v.emailRequired] := by
    intro hn he
    have h1 := (GameWebsite.validateName_iff name).mpr hn
    have h2 : GameWebsite.validateEmail email = false := by
      cases h : GameWebsite.validateEmail email with
      | false => rfl
      | true => exact absurd ((GameWebsite.validateEmail_iff email).mp h) he
    simp [GameWebsite.handleContactForm, h1, h2, GameWebsite.failField, hvt]
  have hM : GameWebsite.NameAccepted name → GameWebsite.EmailAccepted email →
      ¬ GameWebsite.MessageAccepted message →
      GameWebsite.handleContactForm (some d) name email message
        = .normal [GameWebsite.FormAction.preventDefault,
            GameWebsite.FormAction.showFormError "message" v.messageRequired] := by
    intro hn he hm
    have h1 := (GameWebsite.validateName_iff name).mpr hn
    have h2 := (GameWebsite.validateEmail_iff email).mpr he
    have h3 : jsTrim message.data = [] := by
      by_contra h
      exact hm h
    simp [GameWebsite.handleContactForm, h1, h2, h3, GameWebsite.failField, hvt]
  refine ⟨?_, ?_, hN, hE, hM⟩
  · intro hn he hm
    have h1 := (GameWebsite.validateName_iff name).mpr hn
    have h2 := (GameWebsite.validateEmail_iff email).mpr he
    have h3 : jsTrim message.data ≠ [] := hm
    simp [GameWebsite.handleContactForm, h1, h2, h3, hft]
  · intro h
    by_cases hn : GameWebsite.NameAccepted name
    · by_cases he : GameWebsite.EmailAccepted email
      · by_cases hm : GameWebsite.MessageAccepted message
        · exact ⟨hn, he, hm⟩
        · rw [hM hn he hm] at h
          simp [Completion.state] at h
      · rw [hE hn he] at h
        simp [Completion.state] at h
    · rw [hN hn] at h
      simp [Completion.state] at h

/-- C16, at a concrete input: the form texts of `data.json` and a valid
submission, which is accepted. -/
theorem GameWebsite.contact_form_decision_witness :
    GameWebsite.handleContactForm (some GameWebsite.demoData) "Ann Lee" " ann@example.com "
        "Hello"
      = .normal [GameWebsite.FormAction.preventDefault, GameWebsite.FormAction.reset,
          GameWebsite.FormAction.showSuccessMessage (some "Thank you!")] ∧
    GameWebsite.NameAccepted "Ann Lee" ∧ GameWebsite.EmailAccepted " ann@example.com "
      ∧ GameWebsite.MessageAccepted "Hello" :=
  ⟨by decide,
    (GameWebsite.contact_form_decision GameWebsite.demoData
      { form := some GameWebsite.demoForm } GameWebsite.demoForm GameWebsite.demoValidation
      rfl rfl rfl "Ann Lee" " ann@example.com " "Hello").2.1
      (Or.inl (by decide))⟩

/-- C17 (fallback data keeps the site working), evaluated on the code: when the
request for `data.json` is rejected or answered with a non-success status,
`loadData` sets `this.data` to `getFallbackData()`, which has no `contact`
object.  With that data `handleContactForm` throws a `TypeError` for every
submitted name, email and message: it shows neither a field error nor the
success message, and on a valid submission the form has already been reset
when it throws. -/
theorem GameWebsite.fallback_data_breaks_contact_form
    (parseJson : String → Option GameWebsite.SiteData) (name email message : String) :
    GameWebsite.loadData parseJson .networkError = GameWebsite.getFallbackData ∧
    GameWebsite.loadData parseJson (.response 404 (some "Not Found"))
      = GameWebsite.getFallbackData ∧
    (GameWebsite.handleContactForm (some GameWebsite.getFallbackData) name email
      message).isNormal = false ∧
    (∀ field text, GameWebsite.FormAction.showFormError field text
      ∉ (GameWebsite.handleContactForm (some GameWebsite.getFallbackData) name email
          message).state) ∧
    (∀ text, GameWebsite.FormAction.showSuccessMessage text
      ∉ (GameWebsite.handleContactForm (some GameWebsite.getFallbackData) name email
          message).state) ∧
    GameWebsite.handleContactForm (some GameWebsite.getFallbackData) "" "" ""
      = .throw "TypeError: Cannot read properties of undefined"
          [GameWebsite.FormAction.preventDefault] ∧
    GameWebsite.handleContactForm (some GameWebsite.getFallbackData) "Ann Lee"
        "ann@example.com" "Hello"
      = .throw "TypeError: Cannot read properties of undefined"
          [GameWebsite.FormAction.preventDefault, GameWebsite.FormAction.reset] := by
  have hft : GameWebsite.formTexts (some GameWebsite.getFallbackData) = none := rfl
  have hvt : GameWebsite.validationTexts (some GameWebsite.getFallbackData) = none := rfl
  have key : ∀ acts, GameWebsite.handleContactForm (some GameWebsite.getFallbackData)
      name email message = acts →
      (∃ done, acts = .throw "TypeError: Cannot read properties of undefined" done ∧
        (done = [GameWebsite.FormAction.preventDefault] ∨
         done = [GameWebsite.FormAction.preventDefault, GameWebsite.FormAction.reset])) := by
    intro acts hacts
    unfold GameWebsite.handleContactForm at hacts
    rw [hft] at hacts
    simp only [GameWebsite.failField, hvt] at hacts
    split at hacts
    · exact ⟨_, hacts.symm, Or.inl rfl⟩
    · split at hacts
      · exact ⟨_, hacts.symm, Or.inl rfl⟩
      · split at hacts
        · exact ⟨_, hacts.symm, Or.inl rfl⟩
        · exact ⟨_, hacts.symm, Or.inr rfl⟩
  obtain ⟨done, hdone, hcase⟩ := key _ rfl
  refine ⟨rfl, by simp [GameWebsite.loadData, responseOk], ?_, ?_, ?_, by decide, by decide⟩
  · rw [hdone]; rfl
  · intro field text
    rw [hdone]
    rcases hcase with rfl | rfl <;> simp [Completion.state]
  · intro text
    rw [hdone]
    rcases hcase with rfl | rfl <;> simp [Completion.state]

end Spec2Proof
